import Mathlib

/-!
Verification of the session & notification multiplexer of the
AutoGen MCP gateway (files `src/enhanced_index.ts` and `src/index.ts`).

The two server variants are embedded shallowly:

* JS objects / JSON values become the inductive `Json`;
* the `Map<string, _>` registries (`sseTransports`, `progressTokens`)
  become insertion-ordered association lists with JS `Map.set` /
  `Map.delete` semantics (`mapSet` keeps the original position of an
  overwritten key, `mapDelete` filters it out);
* the `Set<string>` of `subscribers` becomes a duplicate-free list;
* an SSE transport is reduced to its observable behaviour: either
  `send` succeeds or it throws a fixed error (`sendError`);
* the async handler code becomes a computation in `M`, a state monad
  with exceptions in which state updates made before a `throw` are
  kept — exactly the semantics of the JS `async`/`await` code, where
  mutations to `this.*` survive a thrown exception;
* the Python backend is an oracle `Env.python` mapping a tool name and
  arguments to a result or an error message (the bridge itself,
  `callPythonHandler`, is modelled separately from the spawn events);
* observability is instrumented by two logs threaded through the
  state: `deliveries` (one entry per successful `transport.send`) and
  `broadcasts` (one entry per logical notification broadcast, i.e.
  per notification-emitting loop that the code starts).
-/

/-- A JSON value as produced by `JSON.parse` / passed around the server. -/
inductive Json where
  | null
  | bool (b : Bool)
  | num (n : Int)
  | str (s : String)
  | arr (elems : List Json)
  | obj (fields : List (String × Json))

/-- JS truthiness of a JSON value (`if (x)`): `null`, `false`, `0` and
the empty string are falsy, everything else (including `[]` and `{}`)
is truthy. -/
def jsTruthy : Json → Bool
  | .null => false
  | .bool b => b
  | .num n => n != 0
  | .str s => s ≠ ""
  | .arr _ => true
  | .obj _ => true

/-- Tool-call arguments: the JS `args` object, as a field list. -/
abbrev Args := List (String × Json)

/-- First value bound to a key in an association list (JS property /
`Map.get` lookup). -/
def mapLookup (m : List (String × α)) (k : String) : Option α :=
  match m with
  | [] => none
  | (k', v) :: rest => if k' = k then some v else mapLookup rest k

/-- JS `Map.set`: overwrite in place if the key is present (keeping its
insertion position), otherwise append at the end. -/
def mapSet (m : List (String × α)) (k : String) (v : α) : List (String × α) :=
  match m with
  | [] => [(k, v)]
  | (k', v') :: rest => if k' = k then (k, v) :: rest else (k', v') :: mapSet rest k v

/-- JS `Map.delete`: remove the key's entry. -/
def mapDelete (m : List (String × α)) (k : String) : List (String × α) :=
  match m with
  | [] => []
  | (k', v') :: rest => if k' = k then mapDelete rest k else (k', v') :: mapDelete rest k

/-- An SSE transport, reduced to its observable send behaviour:
`sendError = none` means `send` resolves, `some e` means `send` rejects
with an error whose message is `e`. -/
structure Transport where
  sendError : Option String
deriving DecidableEq

/-- An outbound notification, as constructed by the two servers. -/
inductive Msg where
  /-- `notifications/progress` (plain: token, progress, message). -/
  | progress (token : String) (progress : Int) (message : String)
  /-- `notifications/progress` carrying a `data` payload (the
  enhanced streaming branch's 75% message). -/
  | progressData (token : String) (progress : Int) (message : String) (data : Json)
  /-- `notifications/streaming_update`. -/
  | streamingUpdate (tool : String) (progress : Int) (data : Json)
  /-- `notifications/resource_updated`. -/
  | resourceUpdated (uri : String) (data : Json)

/-- The `progress` field of a notification, when it has one. -/
def msgProgress : Msg → Option Int
  | .progress _ p _ => some p
  | .progressData _ p _ _ => some p
  | .streamingUpdate _ p _ => some p
  | .resourceUpdated _ _ => none

/-- The `message` field of a notification (empty when absent). -/
def msgMessage : Msg → String
  | .progress _ _ m => m
  | .progressData _ _ m _ => m
  | .streamingUpdate _ _ _ => ""
  | .resourceUpdated _ _ => ""

/-- The progress token of a progress notification. -/
def msgToken : Msg → Option String
  | .progress t _ _ => some t
  | .progressData t _ _ _ => some t
  | _ => none

/-- Whether a notification is a `notifications/streaming_update`. -/
def msgIsStreamingUpdate : Msg → Bool
  | .streamingUpdate _ _ _ => true
  | _ => false

/-- One successful delivery of a notification to one connection. -/
structure Delivery where
  session : String
  msg : Msg

/-- The mutable server state (the `this.*` registries of the server
class) together with the two observation logs. -/
structure St where
  /-- `this.progressTokens : Map<string, string>` — token ↦ tool name. -/
  progressTokens : List (String × String)
  /-- `this.subscribers : Set<string>` — subscribed resource URIs. -/
  subscribers : List String
  /-- `this.sseTransports : Map<string, SSEServerTransport>`. -/
  sseTransports : List (String × Transport)
  /-- Log: one entry per logical notification broadcast started. -/
  broadcasts : List Msg
  /-- Log: one entry per successful per-connection `transport.send`. -/
  deliveries : List Delivery
  /-- Log: one entry per spawn of the Python backend (tool, args). -/
  backendCalls : List (String × Args)

/-- The handler monad: state threading plus exceptions, where state
updates made before a `throw` are kept (JS `async` semantics: mutations
of `this.*` survive a rejected promise). Errors are carried as their
message string (`error.message`). -/
def M (α : Type) : Type := St → Except String α × St

/-- Run a handler computation on a state. -/
def M.run (x : M α) (s : St) : Except String α × St := x s

instance : Monad M where
  pure a := fun s => (.ok a, s)
  bind x f := fun s =>
    match x s with
    | (.ok a, s') => f a s'
    | (.error e, s') => (.error e, s')

instance : MonadExceptOf String M where
  throw e := fun s => (.error e, s)
  tryCatch x h := fun s =>
    match x s with
    | (.ok a, s') => (.ok a, s')
    | (.error e, s') => h e s'

/-- Read the current server state (`this`). -/
def M.get : M St := fun s => (.ok s, s)

/-- Mutate the server state (an assignment to a `this.*` field). -/
def M.modify (f : St → St) : M Unit := fun s => (.ok (), f s)

/-- The external Python backend, as an oracle: a pure mapping from
(tool name, arguments) to a JSON result or an error message. -/
structure Env where
  python : String → Args → Except String Json

section RunLemmas

variable {α β : Type}

@[simp] theorem M.run_pure (a : α) (s : St) :
    M.run (pure a) s = (.ok a, s) := rfl

@[simp] theorem M.run_bind (x : M α) (f : α → M β) (s : St) :
    M.run (x >>= f) s =
      match M.run x s with
      | (.ok a, s') => M.run (f a) s'
      | (.error e, s') => (.error e, s') := rfl

@[simp] theorem M.run_throw (e : String) (s : St) :
    M.run (throw e : M α) s = (.error e, s) := rfl

@[simp] theorem M.run_tryCatch (x : M α) (h : String → M α) (s : St) :
    M.run (tryCatch x h) s =
      match M.run x s with
      | (.ok a, s') => (.ok a, s')
      | (.error e, s') => M.run (h e) s' := rfl

@[simp] theorem M.run_get (s : St) :
    M.run M.get s = (.ok s, s) := rfl

@[simp] theorem M.run_modify (f : St → St) (s : St) :
    M.run (M.modify f) s = (.ok (), f s) := rfl

end RunLemmas

/-! ## Shared send primitives -/

/-- `await transport.send(msg)` on one connection: either the send
resolves (and the delivery is logged) or it rejects. -/
def sendOne (sid : String) (t : Transport) (msg : Msg) : M Unit :=
  match t.sendError with
  | some e => throw e
  | none => M.modify fun s => { s with deliveries := s.deliveries ++ [⟨sid, msg⟩] }

/-- A `for (const transport of ...)` send loop whose body wraps the
send in `try { ... } catch (error) { console.error(...) }`: a failure
is swallowed and the loop continues. -/
def sendLoopCaught (msg : Msg) : List (String × Transport) → M Unit
  | [] => pure ()
  | (sid, t) :: rest => do
    tryCatch (sendOne sid t msg) (fun _ => pure ())
    sendLoopCaught msg rest

/-- A `for (const transport of ...)` send loop with no try/catch: the
first failing send rejects the surrounding promise and the remaining
connections are skipped. -/
def sendLoopRaw (msg : Msg) : List (String × Transport) → M Unit
  | [] => pure ()
  | (sid, t) :: rest => do
    sendOne sid t msg
    sendLoopRaw msg rest

/-- Log the start of one logical notification broadcast (model
instrumentation: one entry per notification-emitting loop the code
enters, independent of how many connections are open). -/
def logBroadcast (msg : Msg) : M Unit :=
  M.modify fun s => { s with broadcasts := s.broadcasts ++ [msg] }

/-- `await this.callPythonHandler(toolName, args)` as used inside the
tool-call handlers: the spawn is recorded in `backendCalls` and the
backend oracle's answer is returned, or thrown as an error. -/
def callPython (env : Env) (toolName : String) (args : Args) : M Json := do
  M.modify fun s => { s with backendCalls := s.backendCalls ++ [(toolName, args)] }
  match env.python toolName args with
  | .ok r => pure r
  | .error e => throw e

/-! ## The enhanced server (`src/enhanced_index.ts`) -/

namespace Enhanced

/-- `sendProgressNotification(progressToken, progress, message)`
(enhanced_index.ts, lines 623–640): one progress broadcast over all
open SSE transports; each per-connection send failure is caught and
only logged. The emitted params also carry a timestamp, which the
model omits. -/
def sendProgressNotification (progressToken : String) (progress : Int)
    (message : String) : M Unit := do
  logBroadcast (.progress progressToken progress message)
  let s ← M.get
  sendLoopCaught (.progress progressToken progress message) s.sseTransports

/-- The locally-answered system-metrics resource body; the fields that
read the process clock and memory are outside the model. -/
def systemMetricsJson (s : St) : Json :=
  Json.obj [("sseConnections", .num (s.sseTransports.length : Int)),
            ("activeSubscriptions", .num (s.subscribers.length : Int)),
            ("progressTokens", .num (s.progressTokens.length : Int))]

/-- `getResourceData(uri)` (enhanced_index.ts): the system-metrics URI
is answered locally, everything else is delegated to the backend; any
error is caught and turned into an `{ error }` object. -/
def getResourceData (env : Env) (uri : String) : M Json :=
  tryCatch
    (do
      if uri = "autogen://system/metrics" then
        let s ← M.get
        pure (systemMetricsJson s)
      else
        callPython env "get_resource" [("uri", .str uri)])
    (fun e => pure (Json.obj [("error", .str e)]))

/-- `data || await this.getResourceData(uri)`: use the provided data
when it is truthy, otherwise fetch the resource. -/
def resolveData (env : Env) (uri : String) (data? : Option Json) : M Json :=
  match data? with
  | some d => if jsTruthy d then pure d else getResourceData env uri
  | none => getResourceData env uri

/-- One iteration of `notifyResourceUpdate`'s loop: resolve
`data || await this.getResourceData(uri)` and send, with the whole
body inside try/catch. -/
def notifyLoop (env : Env) (uri : String) (data? : Option Json) :
    List (String × Transport) → M Unit
  | [] => pure ()
  | (sid, t) :: rest => do
    tryCatch
      (resolveData env uri data? >>= fun d => sendOne sid t (.resourceUpdated uri d))
      (fun _ => pure ())
    notifyLoop env uri data? rest

/-- `notifyResourceUpdate(uri, data?)` (enhanced_index.ts, lines
642–660): only emits when the URI is currently subscribed; each
connection's failure is caught inside the loop. -/
def notifyResourceUpdate (env : Env) (uri : String) (data? : Option Json) : M Unit := do
  let s ← M.get
  if s.subscribers.contains uri then
    notifyLoop env uri data? s.sseTransports
  else
    pure ()

/-- `handleResourceBroadcast(args)` (enhanced_index.ts, lines
608–621). The returned object's `timestamp` field and the
`lastResourceUpdate` bookkeeping assignment are pure clock reads,
outside the model. -/
def handleResourceBroadcast (env : Env) (args : Args) : M Json := do
  let uri := match mapLookup args "uri" with
    | some (.str u) => u
    | _ => ""
  notifyResourceUpdate env uri (mapLookup args "data")
  let s ← M.get
  pure (Json.obj [("success", .bool true),
                  ("uri", .str uri),
                  ("change_type", (mapLookup args "change_type").getD .null),
                  ("subscribers", .num (s.subscribers.length : Int))])

/-- `if (progressToken) { await this.sendProgressNotification(...) }`:
the guard that skips a progress notification when no token came with
the call. -/
def maybeNotify (progressToken : Option String) (p : Int) (m : String) : M Unit :=
  match progressToken with
  | some tok => sendProgressNotification tok p m
  | none => pure ()

/-- The `if (args.streaming && this.sseTransports.size > 0)` block of
`handleStreamingTool`: a raw per-connection loop (NO try/catch)
sending a 75% progress message that carries the backend result, under
the token or the literal `'streaming'` placeholder. -/
def streamingChunk (tokLabel : String) (result : Json) (streaming : Bool)
    (ts : List (String × Transport)) : M Unit :=
  if streaming && !ts.isEmpty then do
    logBroadcast (.progressData tokLabel 75 "Streaming updates..." result)
    sendLoopRaw (.progressData tokLabel 75 "Streaming updates..." result) ts
  else
    pure ()

/-- `handleStreamingTool(toolName, args, progressToken?)`
(enhanced_index.ts, lines 578–606): a 25% notification, the backend
call, then — when `args.streaming` is truthy and at least one SSE
connection is open — the streaming chunk loop over the connections
open at that point, then the 100% notification. -/
def handleStreamingTool (env : Env) (toolName : String) (args : Args)
    (progressToken : Option String) : M Json := do
  maybeNotify progressToken 25 "Initializing streaming..."
  let result ← callPython env toolName args
  let s ← M.get
  streamingChunk (progressToken.getD "streaming") result
    (jsTruthy ((mapLookup args "streaming").getD .null)) s.sseTransports
  maybeNotify progressToken 100 "Streaming completed"
  pure result

/-- `args.progress_token as string | undefined` followed by the
handler's `if (progressToken)` truthiness guard (every tool schema
declares `progress_token` as a string; non-string values are outside
the model). -/
def progressTokenOf (args : Args) : Option String :=
  match mapLookup args "progress_token" with
  | some (.str s) => if s = "" then none else some s
  | _ => none

/-- `this.progressTokens.set(progressToken, toolName)` — the Progress
Tracker's `begin` step as the code performs it: a plain `Map.set`,
overwriting any existing entry for the token. -/
def progressBegin (tokens : List (String × String)) (tok toolName : String) :
    List (String × String) :=
  mapSet tokens tok toolName

/-- The handler's opening `if (progressToken)` block:
`this.progressTokens.set(progressToken, toolName)` then the 0%
notification. -/
def beginStep (progressToken : Option String) (toolName : String) : M Unit :=
  match progressToken with
  | some tok => do
    M.modify fun s => { s with progressTokens := progressBegin s.progressTokens tok toolName }
    sendProgressNotification tok 0 s!"Starting {toolName}..."
  | none => pure ()

/-- The handler's closing `if (progressToken)` block on the default
path: the 100% notification then
`this.progressTokens.delete(progressToken)`. -/
def completeStep (progressToken : Option String) (toolName : String) : M Unit :=
  match progressToken with
  | some tok => do
    sendProgressNotification tok 100 s!"Completed {toolName}"
    M.modify fun s => { s with progressTokens := mapDelete s.progressTokens tok }
  | none => pure ()

/-- The default-tool path of the handler: optional 50% notification,
the backend call, then the completion block. -/
def defaultPath (env : Env) (toolName : String) (args : Args)
    (progressToken : Option String) : M Json := do
  maybeNotify progressToken 50 s!"Processing {toolName}..."
  let result ← callPython env toolName args
  completeStep progressToken toolName
  pure result

/-- The `try`-block of the enhanced `CallToolRequestSchema` handler
(enhanced_index.ts, lines 536–566). -/
def callToolBody (env : Env) (toolName : String) (args : Args) : M Json := do
  beginStep (progressTokenOf args) toolName
  if toolName = "create_streaming_workflow" ∨ toolName = "start_streaming_chat" then
    handleStreamingTool env toolName args (progressTokenOf args)
  else if toolName = "broadcast_resource_update" then
    handleResourceBroadcast env args
  else
    defaultPath env toolName args (progressTokenOf args)

/-- The `if (progressToken)` block of the `catch`-handler: the `-1`
notification then `this.progressTokens.delete(progressToken)`. -/
def errorStep (progressToken : Option String) (toolName : String) (e : String) : M Unit :=
  match progressToken with
  | some tok => do
    sendProgressNotification tok (-1) s!"Error in {toolName}: {e}"
    M.modify fun s => { s with progressTokens := mapDelete s.progressTokens tok }
  | none => pure ()

/-- The `catch`-block of the enhanced handler (enhanced_index.ts,
lines 567–574): one `-1` notification, removal of the token, re-throw
of the original error. -/
def callToolCatch (toolName : String) (progressToken : Option String) (e : String) : M Json := do
  errorStep progressToken toolName e
  throw e

/-- The enhanced `CallToolRequestSchema` handler (enhanced_index.ts,
lines 531–575). -/
def callTool (env : Env) (toolName : String) (args : Args) : M Json :=
  tryCatch (callToolBody env toolName args) (callToolCatch toolName (progressTokenOf args))

/-- The registration step of the enhanced `GET /sse` handler
(enhanced_index.ts, lines 775–781): take the client-supplied
`sessionId` query parameter (JS `||` falls back to a generated
`session_<Date.now()>` id when it is absent or empty) and `Map.set`
the new transport under it, unconditionally. -/
def sseRegister (transports : List (String × Transport)) (querySessionId : Option String)
    (now : Nat) (t : Transport) : List (String × Transport) :=
  let sessionId :=
    match querySessionId with
    | some s => if s = "" then s!"session_{now}" else s
    | none => s!"session_{now}"
  mapSet transports sessionId t

end Enhanced

/-! ## The plain server variant (`src/index.ts`) -/

namespace Idx

/-- `sendProgressNotification(token, progress, message)` (index.ts,
lines 534–548): snapshot the transports and send to each one with NO
try/catch — the first failure rejects the whole notification promise.
The params additionally carry `total: 100`, omitted in `Msg`. -/
def sendProgressNotification (token : String) (progress : Int) (message : String) : M Unit := do
  logBroadcast (.progress token progress message)
  let s ← M.get
  sendLoopRaw (.progress token progress message) s.sseTransports

/-- The `for (let i = 0; i <= steps; i++)` loop of index.ts's
`handleStreamingTool`, over the list of step indices `0..10`. In
binary64 arithmetic `(i / 10) * 100` evaluates to exactly the integer
`10 * i` for every `0 ≤ i ≤ 10`, so the progress value is modelled as
`10 * i`; the `setTimeout` 100 ms delay has no observable effect in
the model and is dropped. -/
def stepLoop (token : String) : List Nat → M Unit
  | [] => pure ()
  | i :: rest => do
    sendProgressNotification token (10 * (i : Int)) s!"Step {i}/10"
    stepLoop token rest

/-- `handleStreamingTool(toolName, args, progressToken)` (index.ts,
lines 509–532): eleven step notifications, then a raw (uncaught) loop
broadcasting a `notifications/streaming_update` whose data is the
call's own `args`, then the literal result
`{ streaming: true, completed: true, tool }`. No backend call. -/
def handleStreamingTool (toolName : String) (args : Args) (progressToken : String) : M Json := do
  stepLoop progressToken (List.range 11)
  let s ← M.get
  logBroadcast (.streamingUpdate toolName 100 (.obj args))
  sendLoopRaw (.streamingUpdate toolName 100 (.obj args)) s.sseTransports
  pure (Json.obj [("streaming", .bool true), ("completed", .bool true), ("tool", .str toolName)])

/-- `request.params._meta?.progressToken` filtered by the handler's
`progressToken && typeof progressToken === 'string'` guard. -/
def metaTokenOf (meta : Option Json) : Option String :=
  match meta with
  | some (.str s) => if s = "" then none else some s
  | _ => none

/-- `if (progressToken) { await this.sendProgressNotification(...) }`. -/
def maybeNotify (progressToken : Option String) (p : Int) (m : String) : M Unit :=
  match progressToken with
  | some tok => sendProgressNotification tok p m
  | none => pure ()

/-- The handler's opening `if (progressToken)` block:
`this.progressTokens.set(...)` then the 0% notification. -/
def beginStep (progressToken : Option String) (toolName : String) : M Unit :=
  match progressToken with
  | some tok => do
    M.modify fun s => { s with progressTokens := mapSet s.progressTokens tok toolName }
    sendProgressNotification tok 0 s!"Starting {toolName}..."
  | none => pure ()

/-- The closing `if (progressToken)` block of the regular path: 100%
notification then `this.progressTokens.delete(...)`. -/
def completeStep (progressToken : Option String) (toolName : String) : M Unit :=
  match progressToken with
  | some tok => do
    sendProgressNotification tok 100 s!"Completed {toolName}"
    M.modify fun s => { s with progressTokens := mapDelete s.progressTokens tok }
  | none => pure ()

/-- The regular (non-streaming) remainder of index.ts's handler body:
optional 50% notification, the backend call, the completion block. -/
def regularPath (env : Env) (toolName : String) (args : Args)
    (progressToken : Option String) : M Json := do
  maybeNotify progressToken 50 s!"Processing {toolName}..."
  let result ← callPython env toolName args
  completeStep progressToken toolName
  pure result

/-- The `try`-block of index.ts's `CallToolRequestSchema` handler
(index.ts, lines 386–413). Note the streaming branch: the streaming
tools are routed to `handleStreamingTool` ONLY when a progress token
is present; the source expresses the token-less fall-through by
continuing after the inner `if`, modelled here by entering
`regularPath` from both places it is reachable. -/
def callToolBody (env : Env) (toolName : String) (args : Args)
    (progressToken : Option String) : M Json := do
  beginStep progressToken toolName
  if toolName = "create_streaming_workflow" ∨ toolName = "start_streaming_chat" then
    match progressToken with
    | some tok => handleStreamingTool toolName args tok
    | none => regularPath env toolName args progressToken
  else
    regularPath env toolName args progressToken

/-- The `if (progressToken)` block of the `catch`-handler. -/
def errorStep (progressToken : Option String) (toolName : String) (e : String) : M Unit :=
  match progressToken with
  | some tok => do
    sendProgressNotification tok (-1) s!"Error in {toolName}: {e}"
    M.modify fun s => { s with progressTokens := mapDelete s.progressTokens tok }
  | none => pure ()

/-- The `catch`-block of index.ts's handler (lines 414–421). -/
def callToolCatch (toolName : String) (progressToken : Option String) (e : String) : M Json := do
  errorStep progressToken toolName e
  throw e

/-- index.ts's `CallToolRequestSchema` handler (lines 381–422); the
progress token comes from the request envelope's `_meta`. -/
def callTool (env : Env) (toolName : String) (args : Args) (meta : Option Json) : M Json :=
  tryCatch (callToolBody env toolName args (metaTokenOf meta))
    (callToolCatch toolName (metaTokenOf meta))

end Idx

/-! ## The Backend Bridge (`callPythonHandler`, identical in both files) -/

/-- The subset of MCP `ErrorCode` the bridge uses. -/
inductive ErrCode where
  | internalError
deriving DecidableEq

/-- `McpError(code, message)`. -/
structure McpError where
  code : ErrCode
  message : String
deriving DecidableEq

/-- The terminal event of the spawned Python process. -/
inductive ProcEvent where
  /-- the `close` event: exit code with fully captured stdout/stderr -/
  | closed (code : Int) (stdout stderr : String)
  /-- the `error` event: the process could not be spawned at all -/
  | spawnFailed (message : String)

/-- `callPythonHandler(toolName, args)` (enhanced_index.ts lines
684–719 and index.ts lines 563–598, identical): how the returned
promise settles once the spawned process terminates. `parse` stands
for the host's `JSON.parse`, returning `none` when it would throw. -/
def callPythonHandler (parse : String → Option Json) (ev : ProcEvent) : Except McpError Json :=
  match ev with
  | .spawnFailed msg => .error ⟨.internalError, msg⟩
  | .closed code stdout stderr =>
    if code ≠ 0 then
      .error ⟨.internalError, if stderr = "" then "Python process failed" else stderr⟩
    else
      match parse stdout with
      | some result => .ok result
      | none => .error ⟨.internalError, "Invalid JSON response from Python"⟩

/-! ## State helpers and basic lemmas -/

/-- Append one broadcast event to the log. -/
def St.addBroadcast (s : St) (m : Msg) : St := { s with broadcasts := s.broadcasts ++ [m] }

/-- Append deliveries to the log. -/
def St.addDeliveries (s : St) (ds : List Delivery) : St :=
  { s with deliveries := s.deliveries ++ ds }

/-- Append one backend spawn to the log. -/
def St.addCall (s : St) (c : String × Args) : St :=
  { s with backendCalls := s.backendCalls ++ [c] }

@[simp] theorem St.addBroadcast_progressTokens (s : St) (m : Msg) :
    (s.addBroadcast m).progressTokens = s.progressTokens := rfl

@[simp] theorem St.addBroadcast_subscribers (s : St) (m : Msg) :
    (s.addBroadcast m).subscribers = s.subscribers := rfl

@[simp] theorem St.addBroadcast_sseTransports (s : St) (m : Msg) :
    (s.addBroadcast m).sseTransports = s.sseTransports := rfl

@[simp] theorem St.addBroadcast_broadcasts (s : St) (m : Msg) :
    (s.addBroadcast m).broadcasts = s.broadcasts ++ [m] := rfl

@[simp] theorem St.addBroadcast_deliveries (s : St) (m : Msg) :
    (s.addBroadcast m).deliveries = s.deliveries := rfl

@[simp] theorem St.addBroadcast_backendCalls (s : St) (m : Msg) :
    (s.addBroadcast m).backendCalls = s.backendCalls := rfl

@[simp] theorem St.addDeliveries_progressTokens (s : St) (ds : List Delivery) :
    (s.addDeliveries ds).progressTokens = s.progressTokens := rfl

@[simp] theorem St.addDeliveries_subscribers (s : St) (ds : List Delivery) :
    (s.addDeliveries ds).subscribers = s.subscribers := rfl

@[simp] theorem St.addDeliveries_sseTransports (s : St) (ds : List Delivery) :
    (s.addDeliveries ds).sseTransports = s.sseTransports := rfl

@[simp] theorem St.addDeliveries_broadcasts (s : St) (ds : List Delivery) :
    (s.addDeliveries ds).broadcasts = s.broadcasts := rfl

@[simp] theorem St.addDeliveries_deliveries (s : St) (ds : List Delivery) :
    (s.addDeliveries ds).deliveries = s.deliveries ++ ds := rfl

@[simp] theorem St.addDeliveries_backendCalls (s : St) (ds : List Delivery) :
    (s.addDeliveries ds).backendCalls = s.backendCalls := rfl

@[simp] theorem St.addCall_progressTokens (s : St) (c : String × Args) :
    (s.addCall c).progressTokens = s.progressTokens := rfl

@[simp] theorem St.addCall_subscribers (s : St) (c : String × Args) :
    (s.addCall c).subscribers = s.subscribers := rfl

@[simp] theorem St.addCall_sseTransports (s : St) (c : String × Args) :
    (s.addCall c).sseTransports = s.sseTransports := rfl

@[simp] theorem St.addCall_broadcasts (s : St) (c : String × Args) :
    (s.addCall c).broadcasts = s.broadcasts := rfl

@[simp] theorem St.addCall_deliveries (s : St) (c : String × Args) :
    (s.addCall c).deliveries = s.deliveries := rfl

@[simp] theorem St.addCall_backendCalls (s : St) (c : String × Args) :
    (s.addCall c).backendCalls = s.backendCalls ++ [c] := rfl

@[simp] theorem St.addDeliveries_addDeliveries (s : St) (a b : List Delivery) :
    (s.addDeliveries a).addDeliveries b = s.addDeliveries (a ++ b) := by
  simp [St.addDeliveries]

@[simp] theorem St.addDeliveries_nil (s : St) : s.addDeliveries [] = s := by
  simp [St.addDeliveries]

/-! ### Association-list lemmas -/

@[simp] theorem mapLookup_mapSet_self (m : List (String × α)) (k : String) (v : α) :
    mapLookup (mapSet m k v) k = some v := by
  induction m with
  | nil => simp [mapSet, mapLookup]
  | cons p rest ih =>
    rcases p with ⟨k', v'⟩
    by_cases h : k' = k <;> simp [mapSet, mapLookup, h, ih]

theorem mapLookup_mapSet_ne (m : List (String × α)) (k k' : String) (v : α)
    (h : k ≠ k') : mapLookup (mapSet m k v) k' = mapLookup m k' := by
  induction m with
  | nil => simp [mapSet, mapLookup, h]
  | cons p rest ih =>
    rcases p with ⟨k₀, v₀⟩
    by_cases h₀ : k₀ = k
    · subst h₀; simp [mapSet, mapLookup, h]
    · simp [mapSet, mapLookup, h₀, ih]

@[simp] theorem mapLookup_mapDelete_self (m : List (String × α)) (k : String) :
    mapLookup (mapDelete m k) k = none := by
  induction m with
  | nil => simp [mapDelete, mapLookup]
  | cons p rest ih =>
    rcases p with ⟨k', v'⟩
    by_cases h : k' = k <;> simp [mapDelete, mapLookup, h, ih]

theorem mapLookup_mapDelete_ne (m : List (String × α)) (k k' : String)
    (h : k ≠ k') : mapLookup (mapDelete m k) k' = mapLookup m k' := by
  induction m with
  | nil => simp [mapDelete, mapLookup]
  | cons p rest ih =>
    rcases p with ⟨k₀, v₀⟩
    by_cases h₀ : k₀ = k
    · subst h₀
      simp [mapDelete, mapLookup, h, ih]
    · simp [mapDelete, mapLookup, h₀, ih]

theorem mapDelete_idem (m : List (String × α)) (k : String) :
    mapDelete (mapDelete m k) k = mapDelete m k := by
  induction m with
  | nil => simp [mapDelete]
  | cons p rest ih =>
    rcases p with ⟨k', v'⟩
    by_cases h : k' = k <;> simp [mapDelete, h, ih]

/-! ### Closed forms for the send primitives -/

/-- The deliveries produced by a catching send loop: every connection
whose send succeeds receives the message. -/
def caughtDeliveries (ts : List (String × Transport)) (msg : Msg) : List Delivery :=
  match ts with
  | [] => []
  | (sid, t) :: rest =>
    match t.sendError with
    | none => ⟨sid, msg⟩ :: caughtDeliveries rest msg
    | some _ => caughtDeliveries rest msg

/-- The deliveries produced by a raw send loop: the prefix of
connections before the first failing one. -/
def rawDeliveries (ts : List (String × Transport)) (msg : Msg) : List Delivery :=
  match ts with
  | [] => []
  | (sid, t) :: rest =>
    match t.sendError with
    | none => ⟨sid, msg⟩ :: rawDeliveries rest msg
    | some _ => []

/-- The error a raw send loop rejects with: the first failing
connection's error, if any. -/
def rawError (ts : List (String × Transport)) : Option String :=
  match ts with
  | [] => none
  | (_, t) :: rest =>
    match t.sendError with
    | none => rawError rest
    | some e => some e

@[simp] theorem run_sendOne (sid : String) (t : Transport) (msg : Msg) (s : St) :
    M.run (sendOne sid t msg) s =
      match t.sendError with
      | some e => (.error e, s)
      | none => (.ok (), s.addDeliveries [⟨sid, msg⟩]) := by
  rcases t with ⟨err⟩
  rcases err with _ | e <;> rfl

@[simp] theorem run_sendLoopCaught (msg : Msg) (ts : List (String × Transport)) (s : St) :
    M.run (sendLoopCaught msg ts) s = (.ok (), s.addDeliveries (caughtDeliveries ts msg)) := by
  induction ts generalizing s with
  | nil => simp [sendLoopCaught, caughtDeliveries]
  | cons p rest ih =>
    rcases p with ⟨sid, t⟩
    rcases t with ⟨err⟩
    rcases err with _ | e <;>
      simp [sendLoopCaught, caughtDeliveries, ih]

@[simp] theorem run_sendLoopRaw (msg : Msg) (ts : List (String × Transport)) (s : St) :
    M.run (sendLoopRaw msg ts) s =
      (match rawError ts with
       | some e => .error e
       | none => .ok (),
       s.addDeliveries (rawDeliveries ts msg)) := by
  induction ts generalizing s with
  | nil => simp [sendLoopRaw, rawError, rawDeliveries]
  | cons p rest ih =>
    rcases p with ⟨sid, t⟩
    rcases t with ⟨err⟩
    rcases err with _ | e <;>
      simp [sendLoopRaw, rawError, rawDeliveries, ih]

@[simp] theorem run_logBroadcast (m : Msg) (s : St) :
    M.run (logBroadcast m) s = (.ok (), s.addBroadcast m) := rfl

@[simp] theorem run_callPython (env : Env) (toolName : String) (args : Args) (s : St) :
    M.run (callPython env toolName args) s =
      (match env.python toolName args with
       | .ok r => .ok r
       | .error e => .error e,
       s.addCall (toolName, args)) := by
  rcases h : env.python toolName args with r | e <;>
    simp [callPython, M.run, Bind.bind, M.modify, h, St.addCall] <;> rfl

/-! ### Closed forms for the broadcast dispatchers -/

@[simp] theorem run_sendProgressNotificationE (tok : String) (p : Int) (m : String) (s : St) :
    M.run (Enhanced.sendProgressNotification tok p m) s =
      (.ok (), (s.addBroadcast (.progress tok p m)).addDeliveries
        (caughtDeliveries s.sseTransports (.progress tok p m))) := by
  simp [Enhanced.sendProgressNotification]

@[simp] theorem run_sendProgressNotificationI (tok : String) (p : Int) (m : String) (s : St) :
    M.run (Idx.sendProgressNotification tok p m) s =
      ((match rawError s.sseTransports with
        | some e => .error e
        | none => .ok ()),
       (s.addBroadcast (.progress tok p m)).addDeliveries
         (rawDeliveries s.sseTransports (.progress tok p m))) := by
  simp [Idx.sendProgressNotification]

theorem run_getResourceData (env : Env) (uri : String) (s : St) :
    M.run (Enhanced.getResourceData env uri) s =
      if uri = "autogen://system/metrics" then
        (.ok (Enhanced.systemMetricsJson s), s)
      else
        ((match env.python "get_resource" [("uri", .str uri)] with
          | .ok r => .ok r
          | .error e => .ok (Json.obj [("error", .str e)])),
         s.addCall ("get_resource", [("uri", .str uri)])) := by
  by_cases h : uri = "autogen://system/metrics"
  · simp [Enhanced.getResourceData, h]
  · rcases henv : env.python "get_resource" [("uri", .str uri)] with r | e <;>
      simp [Enhanced.getResourceData, h, henv]

/-! ### Preservation machinery

`Observational x` says the computation only appends to the three
observation logs: it never changes the progress-token registry, the
subscription set or the transport registry. Every dispatcher-level
function is observational; only the tool-call handler itself mutates
`progressTokens`. -/

def Observational (x : M α) : Prop :=
  ∀ s : St, (M.run x s).2.progressTokens = s.progressTokens ∧
            (M.run x s).2.subscribers = s.subscribers ∧
            (M.run x s).2.sseTransports = s.sseTransports

theorem obs_pure (a : α) : Observational (pure a : M α) :=
  fun _ => ⟨rfl, rfl, rfl⟩

theorem obs_throw (e : String) : Observational (throw e : M α) :=
  fun _ => ⟨rfl, rfl, rfl⟩

theorem obs_bind {x : M α} {f : α → M β}
    (hx : Observational x) (hf : ∀ a, Observational (f a)) :
    Observational (x >>= f) := by
  intro s
  have hx' := hx s
  rw [M.run_bind]
  rcases h : M.run x s with ⟨r, s'⟩
  rw [h] at hx'
  rcases r with e | a
  · exact hx'
  · have hf' := hf a s'
    exact ⟨hf'.1.trans hx'.1, hf'.2.1.trans hx'.2.1, hf'.2.2.trans hx'.2.2⟩

theorem obs_tryCatch {x : M α} {h : String → M α}
    (hx : Observational x) (hh : ∀ e, Observational (h e)) :
    Observational (tryCatch x h) := by
  intro s
  have hx' := hx s
  rw [M.run_tryCatch]
  rcases hr : M.run x s with ⟨r, s'⟩
  rw [hr] at hx'
  rcases r with e | a
  · have hh' := hh e s'
    exact ⟨hh'.1.trans hx'.1, hh'.2.1.trans hx'.2.1, hh'.2.2.trans hx'.2.2⟩
  · exact hx'

theorem obs_sendOne (sid : String) (t : Transport) (msg : Msg) :
    Observational (sendOne sid t msg) := by
  intro s
  rcases t with ⟨err⟩
  rcases err with _ | e <;> exact ⟨rfl, rfl, rfl⟩

theorem obs_sendLoopCaught (msg : Msg) (ts : List (String × Transport)) :
    Observational (sendLoopCaught msg ts) := by
  intro s
  rw [run_sendLoopCaught]
  exact ⟨rfl, rfl, rfl⟩

theorem obs_sendLoopRaw (msg : Msg) (ts : List (String × Transport)) :
    Observational (sendLoopRaw msg ts) := by
  intro s
  rw [run_sendLoopRaw]
  exact ⟨rfl, rfl, rfl⟩

theorem obs_logBroadcast (m : Msg) : Observational (logBroadcast m) :=
  fun _ => ⟨rfl, rfl, rfl⟩

theorem obs_callPython (env : Env) (toolName : String) (args : Args) :
    Observational (callPython env toolName args) := by
  intro s
  rw [run_callPython]
  exact ⟨rfl, rfl, rfl⟩

theorem obs_get : Observational M.get :=
  fun _ => ⟨rfl, rfl, rfl⟩

theorem obs_getResourceData (env : Env) (uri : String) :
    Observational (Enhanced.getResourceData env uri) := by
  intro s
  rw [run_getResourceData]
  by_cases h : uri = "autogen://system/metrics" <;> simp [h]

theorem obs_resolveData (env : Env) (uri : String) (data? : Option Json) :
    Observational (Enhanced.resolveData env uri data?) := by
  unfold Enhanced.resolveData
  rcases data? with _ | d
  · exact obs_getResourceData env uri
  · by_cases hd : jsTruthy d <;> simp only [hd, if_true, if_false]
    · exact obs_pure _
    · exact obs_getResourceData env uri

theorem obs_notifyLoop (env : Env) (uri : String) (data? : Option Json)
    (ts : List (String × Transport)) :
    Observational (Enhanced.notifyLoop env uri data? ts) := by
  induction ts with
  | nil => exact obs_pure _
  | cons p rest ih =>
    rcases p with ⟨sid, t⟩
    refine obs_bind (obs_tryCatch ?_ fun _ => obs_pure _) fun _ => ih
    exact obs_bind (obs_resolveData env uri data?) fun d => obs_sendOne sid t _

theorem obs_notifyResourceUpdate (env : Env) (uri : String) (data? : Option Json) :
    Observational (Enhanced.notifyResourceUpdate env uri data?) := by
  unfold Enhanced.notifyResourceUpdate
  refine obs_bind obs_get fun s => ?_
  split
  · exact obs_notifyLoop env uri data? s.sseTransports
  · exact obs_pure _

theorem obs_handleResourceBroadcast (env : Env) (args : Args) :
    Observational (Enhanced.handleResourceBroadcast env args) := by
  refine obs_bind (obs_notifyResourceUpdate env _ _) fun _ => ?_
  exact obs_bind obs_get fun s => obs_pure _

theorem obs_sendProgressNotificationE (tok : String) (p : Int) (m : String) :
    Observational (Enhanced.sendProgressNotification tok p m) := by
  intro s
  rw [run_sendProgressNotificationE]
  exact ⟨rfl, rfl, rfl⟩

theorem obs_sendProgressNotificationI (tok : String) (p : Int) (m : String) :
    Observational (Idx.sendProgressNotification tok p m) := by
  intro s
  rw [run_sendProgressNotificationI]
  exact ⟨rfl, rfl, rfl⟩

theorem obs_maybeNotifyE (ptok : Option String) (p : Int) (m : String) :
    Observational (Enhanced.maybeNotify ptok p m) := by
  unfold Enhanced.maybeNotify
  rcases ptok with _ | tok
  · exact obs_pure _
  · exact obs_sendProgressNotificationE _ _ _

theorem obs_streamingChunk (tokLabel : String) (result : Json) (streaming : Bool)
    (ts : List (String × Transport)) :
    Observational (Enhanced.streamingChunk tokLabel result streaming ts) := by
  unfold Enhanced.streamingChunk
  split
  · exact obs_bind (obs_logBroadcast _) fun _ => obs_sendLoopRaw _ _
  · exact obs_pure _

theorem obs_handleStreamingToolE (env : Env) (toolName : String) (args : Args)
    (ptok : Option String) :
    Observational (Enhanced.handleStreamingTool env toolName args ptok) := by
  unfold Enhanced.handleStreamingTool
  refine obs_bind (obs_maybeNotifyE _ _ _) fun _ => ?_
  refine obs_bind (obs_callPython env toolName args) fun result => ?_
  refine obs_bind obs_get fun s => ?_
  refine obs_bind (obs_streamingChunk _ _ _ _) fun _ => ?_
  exact obs_bind (obs_maybeNotifyE _ _ _) fun _ => obs_pure _

theorem obs_stepLoop (tok : String) (is : List Nat) :
    Observational (Idx.stepLoop tok is) := by
  induction is with
  | nil => exact obs_pure _
  | cons i rest ih =>
    exact obs_bind (obs_sendProgressNotificationI _ _ _) fun _ => ih

theorem obs_handleStreamingToolI (toolName : String) (args : Args) (tok : String) :
    Observational (Idx.handleStreamingTool toolName args tok) := by
  refine obs_bind (obs_stepLoop tok _) fun _ => ?_
  refine obs_bind obs_get fun s => ?_
  refine obs_bind (obs_logBroadcast _) fun _ => ?_
  exact obs_bind (obs_sendLoopRaw _ _) fun _ => obs_pure _

/-! ### The `-1` progress filter (for the error-path property)

`KeepsNeg x` says the computation never logs a broadcast whose
progress field is `-1`. The whole `try`-block of the enhanced handler
keeps this filter, so the single `-1` broadcast of a failed call can
only come from the `catch`-block. -/

/-- Whether a notification carries progress `-1`. -/
def isNegMsg (m : Msg) : Bool := msgProgress m == some (-1)

/-- The computation adds no `-1`-progress broadcast to the log, on any
run (also when it throws). -/
def KeepsNeg (x : M α) : Prop :=
  ∀ s : St, ((M.run x s).2.broadcasts).filter isNegMsg = s.broadcasts.filter isNegMsg

theorem keepsNeg_pure (a : α) : KeepsNeg (pure a : M α) := fun _ => rfl

theorem keepsNeg_throw (e : String) : KeepsNeg (throw e : M α) := fun _ => rfl

theorem keepsNeg_get : KeepsNeg M.get := fun _ => rfl

theorem keepsNeg_bind {x : M α} {f : α → M β}
    (hx : KeepsNeg x) (hf : ∀ a, KeepsNeg (f a)) : KeepsNeg (x >>= f) := by
  intro s
  have hx' := hx s
  rw [M.run_bind]
  rcases h : M.run x s with ⟨r, s'⟩
  rw [h] at hx'
  rcases r with e | a
  · exact hx'
  · exact ((hf a) s').trans hx'

theorem keepsNeg_tryCatch {x : M α} {h : String → M α}
    (hx : KeepsNeg x) (hh : ∀ e, KeepsNeg (h e)) : KeepsNeg (tryCatch x h) := by
  intro s
  have hx' := hx s
  rw [M.run_tryCatch]
  rcases hr : M.run x s with ⟨r, s'⟩
  rw [hr] at hx'
  rcases r with e | a
  · exact ((hh e) s').trans hx'
  · exact hx'

theorem isNegMsg_progress (tok : String) (p : Int) (m : String) (hp : p ≠ -1) :
    isNegMsg (.progress tok p m) = false := by
  simp [isNegMsg, msgProgress, hp]

theorem isNegMsg_progressData (tok : String) (p : Int) (m : String) (d : Json)
    (hp : p ≠ -1) : isNegMsg (.progressData tok p m d) = false := by
  simp [isNegMsg, msgProgress, hp]

theorem keepsNeg_sendOne (sid : String) (t : Transport) (msg : Msg) :
    KeepsNeg (sendOne sid t msg) := by
  intro s
  rcases t with ⟨err⟩
  rcases err with _ | e <;> rfl

theorem keepsNeg_sendLoopCaught (msg : Msg) (ts : List (String × Transport)) :
    KeepsNeg (sendLoopCaught msg ts) := by
  intro s
  rw [run_sendLoopCaught]
  rfl

theorem keepsNeg_sendLoopRaw (msg : Msg) (ts : List (String × Transport)) :
    KeepsNeg (sendLoopRaw msg ts) := by
  intro s
  rw [run_sendLoopRaw]
  rfl

theorem keepsNeg_logBroadcast {m : Msg} (hm : isNegMsg m = false) :
    KeepsNeg (logBroadcast m) := by
  intro s
  rw [run_logBroadcast]
  simp [St.addBroadcast, List.filter_append, List.filter_cons, hm]

theorem keepsNeg_callPython (env : Env) (toolName : String) (args : Args) :
    KeepsNeg (callPython env toolName args) := by
  intro s
  rw [run_callPython]
  rfl

theorem keepsNeg_modifyTokens (f : St → List (String × String)) :
    KeepsNeg (M.modify fun s => { s with progressTokens := f s }) :=
  fun _ => rfl

theorem keepsNeg_sPNE (tok : String) (p : Int) (m : String) (hp : p ≠ -1) :
    KeepsNeg (Enhanced.sendProgressNotification tok p m) := by
  intro s
  rw [run_sendProgressNotificationE]
  simp [List.filter_append, List.filter_cons, isNegMsg_progress tok p m hp]

theorem keepsNeg_getResourceData (env : Env) (uri : String) :
    KeepsNeg (Enhanced.getResourceData env uri) := by
  intro s
  rw [run_getResourceData]
  by_cases h : uri = "autogen://system/metrics" <;> simp [h]

theorem keepsNeg_resolveData (env : Env) (uri : String) (data? : Option Json) :
    KeepsNeg (Enhanced.resolveData env uri data?) := by
  unfold Enhanced.resolveData
  rcases data? with _ | d
  · exact keepsNeg_getResourceData env uri
  · by_cases hd : jsTruthy d <;> simp only [hd, if_true, if_false]
    · exact keepsNeg_pure _
    · exact keepsNeg_getResourceData env uri

theorem keepsNeg_notifyLoop (env : Env) (uri : String) (data? : Option Json)
    (ts : List (String × Transport)) :
    KeepsNeg (Enhanced.notifyLoop env uri data? ts) := by
  induction ts with
  | nil => exact keepsNeg_pure _
  | cons p rest ih =>
    rcases p with ⟨sid, t⟩
    refine keepsNeg_bind (keepsNeg_tryCatch ?_ fun _ => keepsNeg_pure _) fun _ => ih
    exact keepsNeg_bind (keepsNeg_resolveData env uri data?) fun d => keepsNeg_sendOne sid t _

theorem keepsNeg_notifyResourceUpdate (env : Env) (uri : String) (data? : Option Json) :
    KeepsNeg (Enhanced.notifyResourceUpdate env uri data?) := by
  unfold Enhanced.notifyResourceUpdate
  refine keepsNeg_bind keepsNeg_get fun s => ?_
  split
  · exact keepsNeg_notifyLoop env uri data? s.sseTransports
  · exact keepsNeg_pure _

theorem keepsNeg_handleResourceBroadcast (env : Env) (args : Args) :
    KeepsNeg (Enhanced.handleResourceBroadcast env args) := by
  refine keepsNeg_bind (keepsNeg_notifyResourceUpdate env _ _) fun _ => ?_
  exact keepsNeg_bind keepsNeg_get fun s => keepsNeg_pure _

theorem keepsNeg_maybeNotifyE (ptok : Option String) (p : Int) (m : String) (hp : p ≠ -1) :
    KeepsNeg (Enhanced.maybeNotify ptok p m) := by
  unfold Enhanced.maybeNotify
  rcases ptok with _ | tok
  · exact keepsNeg_pure _
  · exact keepsNeg_sPNE _ _ _ hp

theorem keepsNeg_streamingChunk (tokLabel : String) (result : Json) (streaming : Bool)
    (ts : List (String × Transport)) :
    KeepsNeg (Enhanced.streamingChunk tokLabel result streaming ts) := by
  unfold Enhanced.streamingChunk
  split
  · exact keepsNeg_bind
      (keepsNeg_logBroadcast (isNegMsg_progressData _ 75 _ _ (by decide)))
      fun _ => keepsNeg_sendLoopRaw _ _
  · exact keepsNeg_pure _

theorem keepsNeg_handleStreamingToolE (env : Env) (toolName : String) (args : Args)
    (ptok : Option String) :
    KeepsNeg (Enhanced.handleStreamingTool env toolName args ptok) := by
  unfold Enhanced.handleStreamingTool
  refine keepsNeg_bind (keepsNeg_maybeNotifyE _ 25 _ (by decide)) fun _ => ?_
  refine keepsNeg_bind (keepsNeg_callPython env toolName args) fun result => ?_
  refine keepsNeg_bind keepsNeg_get fun s => ?_
  refine keepsNeg_bind (keepsNeg_streamingChunk _ _ _ _) fun _ => ?_
  exact keepsNeg_bind (keepsNeg_maybeNotifyE _ 100 _ (by decide)) fun _ => keepsNeg_pure _

theorem keepsNeg_beginStepE (ptok : Option String) (toolName : String) :
    KeepsNeg (Enhanced.beginStep ptok toolName) := by
  unfold Enhanced.beginStep
  rcases ptok with _ | tok
  · exact keepsNeg_pure _
  · exact keepsNeg_bind (keepsNeg_modifyTokens _) fun _ => keepsNeg_sPNE _ 0 _ (by decide)

theorem keepsNeg_completeStepE (ptok : Option String) (toolName : String) :
    KeepsNeg (Enhanced.completeStep ptok toolName) := by
  unfold Enhanced.completeStep
  rcases ptok with _ | tok
  · exact keepsNeg_pure _
  · exact keepsNeg_bind (keepsNeg_sPNE _ 100 _ (by decide)) fun _ => keepsNeg_modifyTokens _

theorem keepsNeg_defaultPathE (env : Env) (toolName : String) (args : Args)
    (ptok : Option String) :
    KeepsNeg (Enhanced.defaultPath env toolName args ptok) := by
  unfold Enhanced.defaultPath
  refine keepsNeg_bind (keepsNeg_maybeNotifyE _ 50 _ (by decide)) fun _ => ?_
  refine keepsNeg_bind (keepsNeg_callPython env toolName args) fun result => ?_
  exact keepsNeg_bind (keepsNeg_completeStepE _ _) fun _ => keepsNeg_pure _

theorem keepsNeg_callToolBodyE (env : Env) (toolName : String) (args : Args) :
    KeepsNeg (Enhanced.callToolBody env toolName args) := by
  unfold Enhanced.callToolBody
  refine keepsNeg_bind (keepsNeg_beginStepE _ _) fun _ => ?_
  split
  · exact keepsNeg_handleStreamingToolE env toolName args _
  split
  · exact keepsNeg_handleResourceBroadcast env args
  · exact keepsNeg_defaultPathE env toolName args _

/-! ### Token-blindness machinery (for the observability property)

`StripEq` relates two states that agree on everything a tool call's
returned result can depend on: the subscription set, the transport
registry, and the backend invocation log up to the `progress_token`
argument field. `Sim x₁ x₂` says the two computations, run from
`StripEq`-related states, settle identically and end in
`StripEq`-related states. -/

/-- Forget the `progress_token` field of a recorded backend call. -/
def stripCall (c : String × Args) : String × Args :=
  (c.1, mapDelete c.2 "progress_token")

/-- State agreement up to progress tokens and observation logs. -/
def StripEq (s₁ s₂ : St) : Prop :=
  s₁.subscribers = s₂.subscribers ∧
  s₁.sseTransports = s₂.sseTransports ∧
  s₁.backendCalls.map stripCall = s₂.backendCalls.map stripCall

theorem stripEq_refl (s : St) : StripEq s s := ⟨rfl, rfl, rfl⟩

theorem stripEq_addBroadcast_left {s₁ s₂ : St} (h : StripEq s₁ s₂) (m : Msg) :
    StripEq (s₁.addBroadcast m) s₂ := h

theorem stripEq_addDeliveries_left {s₁ s₂ : St} (h : StripEq s₁ s₂) (ds : List Delivery) :
    StripEq (s₁.addDeliveries ds) s₂ := h

theorem stripEq_addBroadcast_right {s₁ s₂ : St} (h : StripEq s₁ s₂) (m : Msg) :
    StripEq s₁ (s₂.addBroadcast m) := h

theorem stripEq_addDeliveries_right {s₁ s₂ : St} (h : StripEq s₁ s₂) (ds : List Delivery) :
    StripEq s₁ (s₂.addDeliveries ds) := h

theorem stripEq_addCall {s₁ s₂ : St} (h : StripEq s₁ s₂) {c₁ c₂ : String × Args}
    (hc : stripCall c₁ = stripCall c₂) : StripEq (s₁.addCall c₁) (s₂.addCall c₂) := by
  refine ⟨h.1, h.2.1, ?_⟩
  show (s₁.backendCalls ++ [c₁]).map stripCall = (s₂.backendCalls ++ [c₂]).map stripCall
  simp only [List.map_append, List.map_cons, List.map_nil, h.2.2, hc]

theorem stripEq_tokens_left {s₁ s₂ : St} (h : StripEq s₁ s₂) (f : St → List (String × String)) :
    StripEq { s₁ with progressTokens := f s₁ } s₂ := h

theorem stripEq_tokens_right {s₁ s₂ : St} (h : StripEq s₁ s₂) (f : St → List (String × String)) :
    StripEq s₁ { s₂ with progressTokens := f s₂ } := h

/-- Two computations that settle identically from `StripEq`-related
states and end in `StripEq`-related states. -/
def Sim (x₁ x₂ : M α) : Prop :=
  ∀ s₁ s₂, StripEq s₁ s₂ →
    (M.run x₁ s₁).1 = (M.run x₂ s₂).1 ∧
    StripEq (M.run x₁ s₁).2 (M.run x₂ s₂).2

theorem sim_pure (a : α) : Sim (pure a : M α) (pure a) := fun _ _ h => ⟨rfl, h⟩

theorem sim_throw (e : String) : Sim (throw e : M α) (throw e) := fun _ _ h => ⟨rfl, h⟩

theorem sim_bind {x₁ x₂ : M α} {f₁ f₂ : α → M β}
    (hx : Sim x₁ x₂) (hf : ∀ a, Sim (f₁ a) (f₂ a)) :
    Sim (x₁ >>= f₁) (x₂ >>= f₂) := by
  intro s₁ s₂ h
  have hx' := hx s₁ s₂ h
  rw [M.run_bind, M.run_bind]
  rcases h₁ : M.run x₁ s₁ with ⟨r₁, t₁⟩
  rcases h₂ : M.run x₂ s₂ with ⟨r₂, t₂⟩
  rw [h₁, h₂] at hx'
  obtain ⟨hr, hst⟩ := hx'
  cases hr
  rcases r₁ with e | a
  · exact ⟨rfl, hst⟩
  · exact hf a t₁ t₂ hst

theorem sim_tryCatch {x₁ x₂ : M α} {h₁ h₂ : String → M α}
    (hx : Sim x₁ x₂) (hh : ∀ e, Sim (h₁ e) (h₂ e)) :
    Sim (tryCatch x₁ h₁) (tryCatch x₂ h₂) := by
  intro s₁ s₂ h
  have hx' := hx s₁ s₂ h
  rw [M.run_tryCatch, M.run_tryCatch]
  rcases hr₁ : M.run x₁ s₁ with ⟨r₁, t₁⟩
  rcases hr₂ : M.run x₂ s₂ with ⟨r₂, t₂⟩
  rw [hr₁, hr₂] at hx'
  obtain ⟨hr, hst⟩ := hx'
  cases hr
  rcases r₁ with e | a
  · exact hh e t₁ t₂ hst
  · exact ⟨rfl, hst⟩

theorem sim_get {f₁ f₂ : St → M β}
    (hf : ∀ s₁ s₂, StripEq s₁ s₂ → Sim (f₁ s₁) (f₂ s₂)) :
    Sim (M.get >>= f₁) (M.get >>= f₂) := by
  intro s₁ s₂ h
  rw [M.run_bind, M.run_bind]
  simp only [M.run_get]
  exact hf s₁ s₂ h s₁ s₂ h

theorem sim_sendLoopCaught (m₁ m₂ : Msg) (ts : List (String × Transport)) :
    Sim (sendLoopCaught m₁ ts) (sendLoopCaught m₂ ts) := by
  intro s₁ s₂ h
  rw [run_sendLoopCaught, run_sendLoopCaught]
  exact ⟨rfl, stripEq_addDeliveries_right (stripEq_addDeliveries_left h _) _⟩

theorem sim_sendLoopRaw (m₁ m₂ : Msg) (ts : List (String × Transport)) :
    Sim (sendLoopRaw m₁ ts) (sendLoopRaw m₂ ts) := by
  intro s₁ s₂ h
  rw [run_sendLoopRaw, run_sendLoopRaw]
  exact ⟨rfl, stripEq_addDeliveries_right (stripEq_addDeliveries_left h _) _⟩

theorem sim_logBroadcast (m₁ m₂ : Msg) : Sim (logBroadcast m₁) (logBroadcast m₂) := by
  intro s₁ s₂ h
  rw [run_logBroadcast, run_logBroadcast]
  exact ⟨rfl, stripEq_addBroadcast_right (stripEq_addBroadcast_left h _) _⟩

theorem sim_sPNE (tok₁ tok₂ : String) (p₁ p₂ : Int) (m₁ m₂ : String) :
    Sim (Enhanced.sendProgressNotification tok₁ p₁ m₁)
        (Enhanced.sendProgressNotification tok₂ p₂ m₂) := by
  intro s₁ s₂ h
  rw [run_sendProgressNotificationE, run_sendProgressNotificationE]
  exact ⟨rfl, stripEq_addDeliveries_right (stripEq_addDeliveries_left
    (stripEq_addBroadcast_right (stripEq_addBroadcast_left h _) _) _) _⟩

theorem sim_maybeNotifyE (pt₁ pt₂ : Option String) (p₁ p₂ : Int) (m₁ m₂ : String) :
    Sim (Enhanced.maybeNotify pt₁ p₁ m₁) (Enhanced.maybeNotify pt₂ p₂ m₂) := by
  unfold Enhanced.maybeNotify
  rcases pt₁ with _ | t₁ <;> rcases pt₂ with _ | t₂
  · exact sim_pure _
  · intro s₁ s₂ h
    rw [run_sendProgressNotificationE]
    exact ⟨rfl, stripEq_addDeliveries_right (stripEq_addBroadcast_right h _) _⟩
  · intro s₁ s₂ h
    rw [run_sendProgressNotificationE]
    exact ⟨rfl, stripEq_addDeliveries_left (stripEq_addBroadcast_left h _) _⟩
  · exact sim_sPNE _ _ _ _ _ _

theorem sim_callPythonStrip (env : Env) (tool : String) (args : Args)
    (hp : ∀ t a, env.python t (mapDelete a "progress_token") = env.python t a) :
    Sim (callPython env tool args)
        (callPython env tool (mapDelete args "progress_token")) := by
  intro s₁ s₂ h
  rw [run_callPython, run_callPython]
  constructor
  · rw [hp tool args]
  · exact stripEq_addCall h (by simp [stripCall, mapDelete_idem])

theorem sim_callPythonSame (env : Env) (tool : String) (args : Args) :
    Sim (callPython env tool args) (callPython env tool args) := by
  intro s₁ s₂ h
  rw [run_callPython, run_callPython]
  exact ⟨rfl, stripEq_addCall h rfl⟩

theorem progressTokenOf_strip (args : Args) :
    Enhanced.progressTokenOf (mapDelete args "progress_token") = none := by
  simp [Enhanced.progressTokenOf, mapLookup_mapDelete_self]

theorem okStrip_getResourceData (env : Env) (uri : String) :
    ∀ s₁ s₂, StripEq s₁ s₂ →
      (∃ d₁, (M.run (Enhanced.getResourceData env uri) s₁).1 = .ok d₁) ∧
      (∃ d₂, (M.run (Enhanced.getResourceData env uri) s₂).1 = .ok d₂) ∧
      StripEq (M.run (Enhanced.getResourceData env uri) s₁).2
              (M.run (Enhanced.getResourceData env uri) s₂).2 := by
  intro s₁ s₂ h
  rw [run_getResourceData, run_getResourceData]
  by_cases hu : uri = "autogen://system/metrics"
  · simp only [hu, if_true]
    exact ⟨⟨_, rfl⟩, ⟨_, rfl⟩, h⟩
  · simp only [hu, if_false]
    refine ⟨?_, ?_, stripEq_addCall h rfl⟩ <;>
      rcases henv : env.python "get_resource" [("uri", .str uri)] with r | e <;>
        simp [henv]

theorem okStrip_resolveData (env : Env) (uri : String) (data? : Option Json) :
    ∀ s₁ s₂, StripEq s₁ s₂ →
      (∃ d₁, (M.run (Enhanced.resolveData env uri data?) s₁).1 = .ok d₁) ∧
      (∃ d₂, (M.run (Enhanced.resolveData env uri data?) s₂).1 = .ok d₂) ∧
      StripEq (M.run (Enhanced.resolveData env uri data?) s₁).2
              (M.run (Enhanced.resolveData env uri data?) s₂).2 := by
  intro s₁ s₂ h
  unfold Enhanced.resolveData
  rcases data? with _ | d
  · exact okStrip_getResourceData env uri s₁ s₂ h
  · by_cases hd : jsTruthy d <;> simp only [hd, if_true, if_false]
    · exact ⟨⟨d, rfl⟩, ⟨d, rfl⟩, h⟩
    · exact okStrip_getResourceData env uri s₁ s₂ h

theorem sim_notifyIter (env : Env) (uri : String) (data? : Option Json)
    (sid : String) (t : Transport) :
    Sim (tryCatch (Enhanced.resolveData env uri data? >>=
                    fun d => sendOne sid t (.resourceUpdated uri d)) (fun _ => pure ()))
        (tryCatch (Enhanced.resolveData env uri data? >>=
                    fun d => sendOne sid t (.resourceUpdated uri d)) (fun _ => pure ())) := by
  intro s₁ s₂ h
  obtain ⟨⟨d₁, hd₁⟩, ⟨d₂, hd₂⟩, hst⟩ := okStrip_resolveData env uri data? s₁ s₂ h
  rw [M.run_tryCatch, M.run_tryCatch, M.run_bind, M.run_bind]
  rcases h₁ : M.run (Enhanced.resolveData env uri data?) s₁ with ⟨r₁, t₁⟩
  rcases h₂ : M.run (Enhanced.resolveData env uri data?) s₂ with ⟨r₂, t₂⟩
  rw [h₁] at hd₁
  rw [h₂] at hd₂
  rw [h₁, h₂] at hst
  have hr₁ : r₁ = Except.ok d₁ := hd₁
  have hr₂ : r₂ = Except.ok d₂ := hd₂
  subst hr₁
  subst hr₂
  rcases t with ⟨err⟩
  rcases err with _ | e <;> simp only [run_sendOne]
  · exact ⟨trivial, hst⟩
  · exact ⟨rfl, hst⟩

theorem sim_notifyLoop (env : Env) (uri : String) (data? : Option Json)
    (ts : List (String × Transport)) :
    Sim (Enhanced.notifyLoop env uri data? ts) (Enhanced.notifyLoop env uri data? ts) := by
  induction ts with
  | nil => exact sim_pure _
  | cons p rest ih =>
    rcases p with ⟨sid, t⟩
    exact sim_bind (sim_notifyIter env uri data? sid t) fun _ => ih

theorem sim_notifyResourceUpdate (env : Env) (uri : String) (data? : Option Json) :
    Sim (Enhanced.notifyResourceUpdate env uri data?)
        (Enhanced.notifyResourceUpdate env uri data?) := by
  unfold Enhanced.notifyResourceUpdate
  refine sim_get fun s₁ s₂ h => ?_
  rw [← h.1, ← h.2.1]
  split
  · exact sim_notifyLoop env uri data? s₁.sseTransports
  · exact sim_pure _

theorem sim_handleResourceBroadcast (env : Env) (args : Args) :
    Sim (Enhanced.handleResourceBroadcast env args)
        (Enhanced.handleResourceBroadcast env (mapDelete args "progress_token")) := by
  unfold Enhanced.handleResourceBroadcast
  rw [mapLookup_mapDelete_ne args "progress_token" "uri" (by decide),
      mapLookup_mapDelete_ne args "progress_token" "data" (by decide),
      mapLookup_mapDelete_ne args "progress_token" "change_type" (by decide)]
  refine sim_bind (sim_notifyResourceUpdate env _ _) fun _ => ?_
  refine sim_get fun s₁ s₂ h => ?_
  rw [← h.1]
  exact sim_pure _

theorem sim_streamingChunk (l₁ l₂ : String) (r : Json) (b : Bool)
    (ts : List (String × Transport)) :
    Sim (Enhanced.streamingChunk l₁ r b ts) (Enhanced.streamingChunk l₂ r b ts) := by
  unfold Enhanced.streamingChunk
  split
  · exact sim_bind (sim_logBroadcast _ _) fun _ => sim_sendLoopRaw _ _ _
  · exact sim_pure _

theorem sim_handleStreamingToolE (env : Env) (tool : String) (args : Args)
    (pt₁ pt₂ : Option String)
    (hp : ∀ t a, env.python t (mapDelete a "progress_token") = env.python t a) :
    Sim (Enhanced.handleStreamingTool env tool args pt₁)
        (Enhanced.handleStreamingTool env tool (mapDelete args "progress_token") pt₂) := by
  unfold Enhanced.handleStreamingTool
  rw [mapLookup_mapDelete_ne args "progress_token" "streaming" (by decide)]
  refine sim_bind (sim_maybeNotifyE _ _ _ _ _ _) fun _ => ?_
  refine sim_bind (sim_callPythonStrip env tool args hp) fun result => ?_
  refine sim_get fun s₁ s₂ h => ?_
  rw [← h.2.1]
  refine sim_bind (sim_streamingChunk _ _ _ _ _) fun _ => ?_
  exact sim_bind (sim_maybeNotifyE _ _ _ _ _ _) fun _ => sim_pure _

theorem sim_beginStepE (pt : Option String) (tool : String) :
    Sim (Enhanced.beginStep pt tool) (Enhanced.beginStep none tool) := by
  unfold Enhanced.beginStep
  rcases pt with _ | tok
  · exact sim_pure _
  · intro s₁ s₂ h
    rw [M.run_bind]
    simp only [M.run_modify, run_sendProgressNotificationE, M.run_pure]
    exact ⟨trivial, h⟩

theorem sim_completeStepE (pt : Option String) (tool : String) :
    Sim (Enhanced.completeStep pt tool) (Enhanced.completeStep none tool) := by
  unfold Enhanced.completeStep
  rcases pt with _ | tok
  · exact sim_pure _
  · intro s₁ s₂ h
    rw [M.run_bind]
    simp only [run_sendProgressNotificationE, M.run_modify, M.run_pure]
    exact ⟨trivial, h⟩

theorem sim_defaultPathE (env : Env) (tool : String) (args : Args) (pt : Option String)
    (hp : ∀ t a, env.python t (mapDelete a "progress_token") = env.python t a) :
    Sim (Enhanced.defaultPath env tool args pt)
        (Enhanced.defaultPath env tool (mapDelete args "progress_token") none) := by
  unfold Enhanced.defaultPath
  refine sim_bind (sim_maybeNotifyE _ _ _ _ _ _) fun _ => ?_
  refine sim_bind (sim_callPythonStrip env tool args hp) fun result => ?_
  exact sim_bind (sim_completeStepE _ _) fun _ => sim_pure _

theorem sim_errorStepE (pt : Option String) (tool e : String) :
    Sim (Enhanced.errorStep pt tool e) (Enhanced.errorStep none tool e) := by
  unfold Enhanced.errorStep
  rcases pt with _ | tok
  · exact sim_pure _
  · intro s₁ s₂ h
    rw [M.run_bind]
    simp only [run_sendProgressNotificationE, M.run_modify, M.run_pure]
    exact ⟨trivial, h⟩

theorem sim_callToolCatchE (tool : String) (pt : Option String) (e : String) :
    Sim (Enhanced.callToolCatch tool pt e) (Enhanced.callToolCatch tool none e) := by
  unfold Enhanced.callToolCatch
  exact sim_bind (sim_errorStepE pt tool e) fun _ => sim_throw e

theorem sim_callToolBodyE (env : Env) (tool : String) (args : Args)
    (hp : ∀ t a, env.python t (mapDelete a "progress_token") = env.python t a) :
    Sim (Enhanced.callToolBody env tool args)
        (Enhanced.callToolBody env tool (mapDelete args "progress_token")) := by
  unfold Enhanced.callToolBody
  rw [progressTokenOf_strip]
  refine sim_bind (sim_beginStepE _ _) fun _ => ?_
  by_cases hc : tool = "create_streaming_workflow" ∨ tool = "start_streaming_chat"
  · rw [if_pos hc, if_pos hc]
    exact sim_handleStreamingToolE env tool args _ none hp
  · rw [if_neg hc, if_neg hc]
    by_cases hb : tool = "broadcast_resource_update"
    · rw [if_pos hb, if_pos hb]
      exact sim_handleResourceBroadcast env args
    · rw [if_neg hb, if_neg hb]
      exact sim_defaultPathE env tool args _ hp

theorem sim_callToolE (env : Env) (tool : String) (args : Args)
    (hp : ∀ t a, env.python t (mapDelete a "progress_token") = env.python t a) :
    Sim (Enhanced.callTool env tool args)
        (Enhanced.callTool env tool (mapDelete args "progress_token")) := by
  unfold Enhanced.callTool
  rw [progressTokenOf_strip]
  exact sim_tryCatch (sim_callToolBodyE env tool args hp)
    fun e => sim_callToolCatchE tool _ e

/-! ### Frame machinery for the tool-call handler

`CoreFrame x`: the computation never changes the subscription set or
the transport registry. `TokensFrame tok x`: the computation changes
at most the progress-token entry keyed `tok`. -/

def CoreFrame (x : M α) : Prop :=
  ∀ s : St, (M.run x s).2.subscribers = s.subscribers ∧
            (M.run x s).2.sseTransports = s.sseTransports

theorem coreFrame_of_obs {x : M α} (h : Observational x) : CoreFrame x :=
  fun s => ⟨(h s).2.1, (h s).2.2⟩

theorem coreFrame_pure (a : α) : CoreFrame (pure a : M α) := fun _ => ⟨rfl, rfl⟩

theorem coreFrame_throw (e : String) : CoreFrame (throw e : M α) := fun _ => ⟨rfl, rfl⟩

theorem coreFrame_modifyTokens (f : St → List (String × String)) :
    CoreFrame (M.modify fun s => { s with progressTokens := f s }) := fun _ => ⟨rfl, rfl⟩

theorem coreFrame_bind {x : M α} {f : α → M β}
    (hx : CoreFrame x) (hf : ∀ a, CoreFrame (f a)) : CoreFrame (x >>= f) := by
  intro s
  have hx' := hx s
  rw [M.run_bind]
  rcases h : M.run x s with ⟨r, s'⟩
  rw [h] at hx'
  rcases r with e | a
  · exact hx'
  · have hf' := hf a s'
    exact ⟨hf'.1.trans hx'.1, hf'.2.trans hx'.2⟩

theorem coreFrame_tryCatch {x : M α} {h : String → M α}
    (hx : CoreFrame x) (hh : ∀ e, CoreFrame (h e)) : CoreFrame (tryCatch x h) := by
  intro s
  have hx' := hx s
  rw [M.run_tryCatch]
  rcases hr : M.run x s with ⟨r, s'⟩
  rw [hr] at hx'
  rcases r with e | a
  · have hh' := hh e s'
    exact ⟨hh'.1.trans hx'.1, hh'.2.trans hx'.2⟩
  · exact hx'

theorem coreFrame_beginStepE (pt : Option String) (tool : String) :
    CoreFrame (Enhanced.beginStep pt tool) := by
  unfold Enhanced.beginStep
  rcases pt with _ | tok
  · exact coreFrame_pure _
  · exact coreFrame_bind (coreFrame_modifyTokens _)
      fun _ => coreFrame_of_obs (obs_sendProgressNotificationE _ _ _)

theorem coreFrame_completeStepE (pt : Option String) (tool : String) :
    CoreFrame (Enhanced.completeStep pt tool) := by
  unfold Enhanced.completeStep
  rcases pt with _ | tok
  · exact coreFrame_pure _
  · exact coreFrame_bind (coreFrame_of_obs (obs_sendProgressNotificationE _ _ _))
      fun _ => coreFrame_modifyTokens _

theorem coreFrame_defaultPathE (env : Env) (tool : String) (args : Args)
    (pt : Option String) : CoreFrame (Enhanced.defaultPath env tool args pt) := by
  unfold Enhanced.defaultPath
  refine coreFrame_bind (coreFrame_of_obs (obs_maybeNotifyE _ _ _)) fun _ => ?_
  refine coreFrame_bind (coreFrame_of_obs (obs_callPython env tool args)) fun result => ?_
  exact coreFrame_bind (coreFrame_completeStepE _ _) fun _ => coreFrame_pure _

theorem coreFrame_callToolBodyE (env : Env) (tool : String) (args : Args) :
    CoreFrame (Enhanced.callToolBody env tool args) := by
  unfold Enhanced.callToolBody
  refine coreFrame_bind (coreFrame_beginStepE _ _) fun _ => ?_
  split
  · exact coreFrame_of_obs (obs_handleStreamingToolE env tool args _)
  split
  · exact coreFrame_of_obs (obs_handleResourceBroadcast env args)
  · exact coreFrame_defaultPathE env tool args _

theorem coreFrame_errorStepE (pt : Option String) (tool e : String) :
    CoreFrame (Enhanced.errorStep pt tool e) := by
  unfold Enhanced.errorStep
  rcases pt with _ | tok
  · exact coreFrame_pure _
  · exact coreFrame_bind (coreFrame_of_obs (obs_sendProgressNotificationE _ _ _))
      fun _ => coreFrame_modifyTokens _

theorem coreFrame_callToolCatchE (tool : String) (pt : Option String) (e : String) :
    CoreFrame (Enhanced.callToolCatch tool pt e) := by
  unfold Enhanced.callToolCatch
  exact coreFrame_bind (coreFrame_errorStepE _ _ _) fun _ => coreFrame_throw e

theorem coreFrame_callToolE (env : Env) (tool : String) (args : Args) :
    CoreFrame (Enhanced.callTool env tool args) := by
  unfold Enhanced.callTool
  exact coreFrame_tryCatch (coreFrame_callToolBodyE env tool args)
    fun e => coreFrame_callToolCatchE tool _ e

def TokensFrame (tok : String) (x : M α) : Prop :=
  ∀ (s : St) (k : String), k ≠ tok →
    mapLookup (M.run x s).2.progressTokens k = mapLookup s.progressTokens k

theorem tokensFrame_of_obs {x : M α} (h : Observational x) (tok : String) :
    TokensFrame tok x := by
  intro s k _
  rw [(h s).1]

theorem tokensFrame_pure (tok : String) (a : α) : TokensFrame tok (pure a : M α) :=
  fun _ _ _ => rfl

theorem tokensFrame_throw (tok : String) (e : String) : TokensFrame tok (throw e : M α) :=
  fun _ _ _ => rfl

theorem tokensFrame_bind {tok : String} {x : M α} {f : α → M β}
    (hx : TokensFrame tok x) (hf : ∀ a, TokensFrame tok (f a)) :
    TokensFrame tok (x >>= f) := by
  intro s k hk
  have hx' := hx s k hk
  rw [M.run_bind]
  rcases h : M.run x s with ⟨r, s'⟩
  rw [h] at hx'
  rcases r with e | a
  · exact hx'
  · exact (hf a s' k hk).trans hx'

theorem tokensFrame_tryCatch {tok : String} {x : M α} {h : String → M α}
    (hx : TokensFrame tok x) (hh : ∀ e, TokensFrame tok (h e)) :
    TokensFrame tok (tryCatch x h) := by
  intro s k hk
  have hx' := hx s k hk
  rw [M.run_tryCatch]
  rcases hr : M.run x s with ⟨r, s'⟩
  rw [hr] at hx'
  rcases r with e | a
  · exact (hh e s' k hk).trans hx'
  · exact hx'

theorem tokensFrame_beginStepE (tok tool : String) :
    TokensFrame tok (Enhanced.beginStep (some tok) tool) := by
  unfold Enhanced.beginStep
  refine tokensFrame_bind ?_ fun _ =>
    tokensFrame_of_obs (obs_sendProgressNotificationE _ _ _) tok
  intro s k hk
  simp only [M.run_modify]
  exact mapLookup_mapSet_ne _ _ _ _ fun h => hk h.symm

theorem tokensFrame_completeStepE (tok tool : String) :
    TokensFrame tok (Enhanced.completeStep (some tok) tool) := by
  unfold Enhanced.completeStep
  refine tokensFrame_bind
    (tokensFrame_of_obs (obs_sendProgressNotificationE _ _ _) tok) fun _ => ?_
  intro s k hk
  simp only [M.run_modify]
  exact mapLookup_mapDelete_ne _ _ _ fun h => hk h.symm

theorem tokensFrame_errorStepE (tok tool e : String) :
    TokensFrame tok (Enhanced.errorStep (some tok) tool e) := by
  unfold Enhanced.errorStep
  refine tokensFrame_bind
    (tokensFrame_of_obs (obs_sendProgressNotificationE _ _ _) tok) fun _ => ?_
  intro s k hk
  simp only [M.run_modify]
  exact mapLookup_mapDelete_ne _ _ _ fun h => hk h.symm

theorem tokensFrame_defaultPathE (env : Env) (tool : String) (args : Args) (tok : String) :
    TokensFrame tok (Enhanced.defaultPath env tool args (some tok)) := by
  unfold Enhanced.defaultPath
  refine tokensFrame_bind (tokensFrame_of_obs (obs_maybeNotifyE _ _ _) tok) fun _ => ?_
  refine tokensFrame_bind (tokensFrame_of_obs (obs_callPython env tool args) tok)
    fun result => ?_
  exact tokensFrame_bind (tokensFrame_completeStepE tok tool) fun _ => tokensFrame_pure tok _

theorem tokensFrame_callToolBodyE (env : Env) (tool : String) (args : Args) (tok : String)
    (hpt : Enhanced.progressTokenOf args = some tok) :
    TokensFrame tok (Enhanced.callToolBody env tool args) := by
  unfold Enhanced.callToolBody
  rw [hpt]
  refine tokensFrame_bind (tokensFrame_beginStepE tok tool) fun _ => ?_
  split
  · exact tokensFrame_of_obs (obs_handleStreamingToolE env tool args _) tok
  split
  · exact tokensFrame_of_obs (obs_handleResourceBroadcast env args) tok
  · exact tokensFrame_defaultPathE env tool args tok

theorem tokensFrame_callToolE (env : Env) (tool : String) (args : Args) (tok : String)
    (hpt : Enhanced.progressTokenOf args = some tok) :
    TokensFrame tok (Enhanced.callTool env tool args) := by
  unfold Enhanced.callTool
  rw [hpt]
  refine tokensFrame_tryCatch (tokensFrame_callToolBodyE env tool args tok hpt) fun e => ?_
  unfold Enhanced.callToolCatch
  exact tokensFrame_bind (tokensFrame_errorStepE tok tool e) fun _ => tokensFrame_throw tok e

theorem obs_beginStepE_noTok (tool : String) :
    Observational (Enhanced.beginStep none tool) := by
  unfold Enhanced.beginStep
  exact obs_pure _

theorem obs_completeStepE_noTok (tool : String) :
    Observational (Enhanced.completeStep none tool) := by
  unfold Enhanced.completeStep
  exact obs_pure _

theorem obs_defaultPathE_noTok (env : Env) (tool : String) (args : Args) :
    Observational (Enhanced.defaultPath env tool args none) := by
  unfold Enhanced.defaultPath
  refine obs_bind (obs_maybeNotifyE _ _ _) fun _ => ?_
  refine obs_bind (obs_callPython env tool args) fun result => ?_
  exact obs_bind (obs_completeStepE_noTok tool) fun _ => obs_pure _

theorem obs_callToolE_noTok (env : Env) (tool : String) (args : Args)
    (hpt : Enhanced.progressTokenOf args = none) :
    Observational (Enhanced.callTool env tool args) := by
  unfold Enhanced.callTool Enhanced.callToolBody Enhanced.callToolCatch
  rw [hpt]
  refine obs_tryCatch ?_ fun e => ?_
  · refine obs_bind (obs_beginStepE_noTok tool) fun _ => ?_
    split
    · exact obs_handleStreamingToolE env tool args _
    split
    · exact obs_handleResourceBroadcast env args
    · exact obs_defaultPathE_noTok env tool args
  · refine obs_bind ?_ fun _ => obs_throw e
    unfold Enhanced.errorStep
    exact obs_pure _

/-! ## Concrete scenario inputs -/

/-- A connection whose `send` always resolves. -/
def connOk : Transport := ⟨none⟩

/-- A connection whose `send` rejects (e.g. the socket is closed). -/
def connBad : Transport := ⟨some "socket closed"⟩

/-- A fresh server state: empty registries, empty logs. -/
def st0 : St := ⟨[], [], [], [], [], []⟩

/-- The fresh state with one open, working SSE connection `c1`. -/
def stOneConn : St := { st0 with sseTransports := [("c1", connOk)] }

/-- A backend that answers every call with the string `"backend result"`. -/
def envOk : Env := ⟨fun _ _ => .ok (.str "backend result")⟩

/-- A backend that fails every call with message `"agent not found"`. -/
def envFail : Env := ⟨fun _ _ => .error "agent not found"⟩


/-- A state with one failing connection `a` followed by one working
connection `b`. -/
def stBadOk : St := { st0 with sseTransports := [("a", connBad), ("b", connOk)] }

/-- The streaming scenario's arguments for the enhanced server (the
token rides inside `args` there). -/
def streamArgsE : Args :=
  [("workflow_name", .str "wf"), ("workflow_type", .str "streaming"),
   ("agents", .arr []), ("streaming", .bool true), ("progress_token", .str "t2")]

/-- The streaming scenario's arguments for the index.ts server (the
token rides in the request `_meta` there). -/
def streamArgsI : Args :=
  [("workflow_name", .str "wf"), ("workflow_type", .str "streaming"),
   ("agents", .arr []), ("streaming", .bool true)]

/-- The `execute_workflow` scenario's arguments, token `"t1"`. -/
def execArgs : Args :=
  [("workflow_name", .str "wf"), ("input_data", .obj []), ("progress_token", .str "t1")]

/-- The enhanced server's run of the streaming scenario: one open
connection, backend succeeds. -/
def enhancedStreamRun : Except String Json × St :=
  M.run (Enhanced.callTool envOk "create_streaming_workflow" streamArgsE) stOneConn

/-- The index.ts server's run of the streaming scenario. -/
def idxStreamRun : Except String Json × St :=
  M.run (Idx.callTool envOk "create_streaming_workflow" streamArgsI (some (.str "t2"))) stOneConn

/-- The enhanced server's run of the `execute_workflow` scenario. -/
def execRun : Except String Json × St :=
  M.run (Enhanced.callTool envOk "execute_workflow" execArgs) stOneConn

/-! ## Supporting lemmas for the broadcast-isolation property -/

theorem mem_caughtDeliveries {ts : List (String × Transport)} {sid : String} {t : Transport}
    (hconn : (sid, t) ∈ ts) (hok : t.sendError = none) (msg : Msg) :
    Delivery.mk sid msg ∈ caughtDeliveries ts msg := by
  induction ts with
  | nil => cases hconn
  | cons p rest ih =>
    rcases p with ⟨sid', t'⟩
    rcases List.mem_cons.mp hconn with h | h
    · cases h
      simp only [caughtDeliveries, hok]
      exact List.mem_cons_self _ _
    · rcases t' with ⟨err'⟩
      rcases err' with _ | e' <;> simp only [caughtDeliveries]
      · exact List.mem_cons_of_mem _ (ih h)
      · exact ih h

theorem run_notifyLoop_truthy (env : Env) (uri : String) (d : Json)
    (hd : jsTruthy d = true) (ts : List (String × Transport)) (s : St) :
    M.run (Enhanced.notifyLoop env uri (some d) ts) s =
      (.ok (), s.addDeliveries (caughtDeliveries ts (.resourceUpdated uri d))) := by
  induction ts generalizing s with
  | nil => simp [Enhanced.notifyLoop, caughtDeliveries]
  | cons p rest ih =>
    rcases p with ⟨sid, t⟩
    rcases t with ⟨err⟩
    rcases err with _ | e <;>
      simp [Enhanced.notifyLoop, Enhanced.resolveData, hd, caughtDeliveries, ih]

theorem run_notifyResourceUpdate_truthy (env : Env) (uri : String) (d : Json)
    (hd : jsTruthy d = true) (s : St) (hsub : s.subscribers.contains uri = true) :
    M.run (Enhanced.notifyResourceUpdate env uri (some d)) s =
      (.ok (), s.addDeliveries (caughtDeliveries s.sseTransports (.resourceUpdated uri d))) := by
  unfold Enhanced.notifyResourceUpdate
  have hmem : uri ∈ s.subscribers := by simpa using hsub
  simp [hmem, run_notifyLoop_truthy env uri d hd]

/-! ## Claim theorems -/

/-- Claim C1 (code bug in the source): the claim demands that a tool
call's progress token is gone from the Progress Tracker after the
terminal notification on EVERY path, including the streaming-tool and
broadcast-only branches. The code violates this: both branches return
without deleting the entry. Concretely, a successful
`create_streaming_workflow` call with token `"t2"` leaves
`t2 ↦ create_streaming_workflow` in the tracker, and a successful
`broadcast_resource_update` call with token `"t3"` leaves
`t3 ↦ broadcast_resource_update` there. -/
theorem c1_progress_token_leak :
    (enhancedStreamRun.1 = .ok (.str "backend result") ∧
     enhancedStreamRun.2.progressTokens = [("t2", "create_streaming_workflow")]) ∧
    ((M.run (Enhanced.callTool envOk "broadcast_resource_update"
        [("uri", .str "autogen://agents/list"), ("change_type", .str "updated"),
         ("progress_token", .str "t3")]) st0).1 =
       .ok (.obj [("success", .bool true), ("uri", .str "autogen://agents/list"),
                  ("change_type", .str "updated"), ("subscribers", .num 0)]) ∧
     (M.run (Enhanced.callTool envOk "broadcast_resource_update"
        [("uri", .str "autogen://agents/list"), ("change_type", .str "updated"),
         ("progress_token", .str "t3")]) st0).2.progressTokens =
       [("t3", "broadcast_resource_update")]) :=
  ⟨⟨rfl, rfl⟩, rfl, rfl⟩

/-- Claim C2, counterexample: the claim as stated — per-connection
failure isolation for EVERY kind of broadcast in both cited files — is
false. index.ts's `sendProgressNotification` has no try/catch: with a
failing connection `a` before a working connection `b`, the broadcast
rejects with the send error and `b` receives nothing (no delivery is
logged). And the enhanced server's streaming-chunk loop is equally
uncaught: the same failing connection makes the whole
`create_streaming_workflow` call fail. -/
theorem c2_raw_broadcast_counterexample :
    M.run (Idx.sendProgressNotification "t" 0 "m") stBadOk =
      (.error "socket closed", { stBadOk with broadcasts := [.progress "t" 0 "m"] }) ∧
    (M.run (Enhanced.callTool envOk "create_streaming_workflow" streamArgsI) stBadOk).1 =
      .error "socket closed" :=
  ⟨rfl, rfl⟩

/-- Claim C2, amended: in the enhanced server, the progress-notification
broadcast and the resource-update broadcast do isolate per-connection
failure — they always resolve (never failing the originating call) and
every connection whose send succeeds receives the notification, no
matter which other connections fail. (The streaming-chunk loops of
both files and index.ts's progress broadcast do not have this
property.) -/
theorem c2_enhanced_broadcast_isolation (env : Env) (s : St) (tok : String) (p : Int)
    (m uri : String) (d : Json) (sid : String) (t : Transport)
    (hconn : (sid, t) ∈ s.sseTransports) (hok : t.sendError = none)
    (hd : jsTruthy d = true) (hsub : s.subscribers.contains uri = true) :
    (M.run (Enhanced.sendProgressNotification tok p m) s).1 = .ok () ∧
    Delivery.mk sid (.progress tok p m) ∈
      (M.run (Enhanced.sendProgressNotification tok p m) s).2.deliveries ∧
    (M.run (Enhanced.notifyResourceUpdate env uri (some d)) s).1 = .ok () ∧
    Delivery.mk sid (.resourceUpdated uri d) ∈
      (M.run (Enhanced.notifyResourceUpdate env uri (some d)) s).2.deliveries := by
  refine ⟨?_, ?_, ?_, ?_⟩
  · rw [run_sendProgressNotificationE]
  · rw [run_sendProgressNotificationE]
    simp only [St.addDeliveries_deliveries, St.addBroadcast_deliveries,
      St.addBroadcast_sseTransports]
    exact List.mem_append_right _ (mem_caughtDeliveries hconn hok _)
  · rw [run_notifyResourceUpdate_truthy env uri d hd s hsub]
  · rw [run_notifyResourceUpdate_truthy env uri d hd s hsub]
    simp only [St.addDeliveries_deliveries]
    exact List.mem_append_right _ (mem_caughtDeliveries hconn hok _)

/-- A state with one failing and one working connection and one
subscribed URI, for the broadcast-isolation witness. -/
def stSubBadOk : St :=
  { st0 with subscribers := ["autogen://agents/list"],
             sseTransports := [("a", connBad), ("b", connOk)] }

/-- Witness for `c2_enhanced_broadcast_isolation` at a concrete state
where connection `a` fails and connection `b` works. -/
theorem c2_enhanced_broadcast_isolation_witness :
    (M.run (Enhanced.sendProgressNotification "t" 5 "msg") stSubBadOk).1 = .ok () ∧
    Delivery.mk "b" (.progress "t" 5 "msg") ∈
      (M.run (Enhanced.sendProgressNotification "t" 5 "msg") stSubBadOk).2.deliveries ∧
    (M.run (Enhanced.notifyResourceUpdate envOk "autogen://agents/list"
      (some (.str "payload"))) stSubBadOk).1 = .ok () ∧
    Delivery.mk "b" (.resourceUpdated "autogen://agents/list" (.str "payload")) ∈
      (M.run (Enhanced.notifyResourceUpdate envOk "autogen://agents/list"
        (some (.str "payload"))) stSubBadOk).2.deliveries :=
  c2_enhanced_broadcast_isolation envOk stSubBadOk "t" 5 "msg" "autogen://agents/list"
    (.str "payload") "b" connOk (by decide) rfl rfl rfl

/-- Claim C3 (confirmed): in the enhanced server, whenever the
`try`-block of a tool call carrying progress token `tok` fails with
error `e` (backend failure or any exception in the branch logic), the
handler re-raises exactly `e`, the token is absent from the tracker
afterwards, and — starting from a log with no `-1` broadcast — exactly
one `-1`-progress broadcast is emitted, namely
`progress(tok, -1, "Error in <tool>: <e>")`. -/
theorem c3_error_path_exactly_one_neg (env : Env) (tool : String) (args : Args) (s : St)
    (tok e : String)
    (hpt : Enhanced.progressTokenOf args = some tok)
    (hclean : s.broadcasts.filter isNegMsg = [])
    (herr : (M.run (Enhanced.callToolBody env tool args) s).1 = .error e) :
    (M.run (Enhanced.callTool env tool args) s).1 = .error e ∧
    mapLookup (M.run (Enhanced.callTool env tool args) s).2.progressTokens tok = none ∧
    ((M.run (Enhanced.callTool env tool args) s).2.broadcasts).filter isNegMsg
      = [.progress tok (-1) s!"Error in {tool}: {e}"] := by
  have hneg := keepsNeg_callToolBodyE env tool args s
  unfold Enhanced.callTool
  rw [hpt]
  rcases hb : M.run (Enhanced.callToolBody env tool args) s with ⟨r, s₁⟩
  rw [hb] at herr hneg
  have hr : r = .error e := herr
  subst hr
  rw [M.run_tryCatch, hb]
  simp only [Enhanced.callToolCatch, Enhanced.errorStep, M.run_bind,
    run_sendProgressNotificationE, M.run_modify, M.run_throw]
  refine ⟨trivial, ?_, ?_⟩
  · exact mapLookup_mapDelete_self _ _
  · show ((s₁.broadcasts ++ [Msg.progress tok (-1) _]).filter isNegMsg) = _
    rw [List.filter_append, hneg, hclean]
    rfl

/-- Witness for `c3_error_path_exactly_one_neg`: `create_agent` with
token `"t1"` against a backend failing with `"agent not found"`. -/
theorem c3_error_path_witness :
    (M.run (Enhanced.callTool envFail "create_agent"
      [("name", .str "a"), ("type", .str "assistant"), ("progress_token", .str "t1")])
      stOneConn).1 = .error "agent not found" ∧
    mapLookup (M.run (Enhanced.callTool envFail "create_agent"
      [("name", .str "a"), ("type", .str "assistant"), ("progress_token", .str "t1")])
      stOneConn).2.progressTokens "t1" = none ∧
    ((M.run (Enhanced.callTool envFail "create_agent"
      [("name", .str "a"), ("type", .str "assistant"), ("progress_token", .str "t1")])
      stOneConn).2.broadcasts).filter isNegMsg =
      [.progress "t1" (-1) "Error in create_agent: agent not found"] :=
  c3_error_path_exactly_one_neg envFail "create_agent"
    [("name", .str "a"), ("type", .str "assistant"), ("progress_token", .str "t1")]
    stOneConn "t1" "agent not found" rfl rfl rfl

/-- Claim C4 (confirmed): the Backend Bridge maps a non-zero exit to an
error carrying the captured stderr (falling back to a fixed message
only when stderr is empty), a zero exit with unparseable stdout to the
fixed protocol-error message, and a zero exit with parseable stdout to
the parsed JSON value. -/
theorem c4_backend_bridge (parse : String → Option Json) (code : Int)
    (stdout stderr : String) (j : Json) :
    (code ≠ 0 →
      callPythonHandler parse (.closed code stdout stderr) =
        .error ⟨.internalError, if stderr = "" then "Python process failed" else stderr⟩) ∧
    (code = 0 → parse stdout = none →
      callPythonHandler parse (.closed code stdout stderr) =
        .error ⟨.internalError, "Invalid JSON response from Python"⟩) ∧
    (code = 0 → parse stdout = some j →
      callPythonHandler parse (.closed code stdout stderr) = .ok j) := by
  refine ⟨fun hc => ?_, fun hc hp => ?_, fun hc hp => ?_⟩
  · simp [callPythonHandler, hc]
  · simp [callPythonHandler, hc, hp]
  · simp [callPythonHandler, hc, hp]

/-- A stand-in for the host's `JSON.parse`: accepts exactly `"{}"`. -/
def parseDemo : String → Option Json := fun s => if s = "{}" then some (.obj []) else none

/-- Witness for `c4_backend_bridge`: exit 2 with stderr
`"agent not found"` carries that text; exit 0 with unparseable stdout
is a protocol error; exit 0 with `"{}"` returns the parsed object. -/
theorem c4_backend_bridge_witness :
    callPythonHandler parseDemo (.closed 2 "" "agent not found") =
      .error ⟨.internalError, "agent not found"⟩ ∧
    callPythonHandler parseDemo (.closed 0 "oops" "") =
      .error ⟨.internalError, "Invalid JSON response from Python"⟩ ∧
    callPythonHandler parseDemo (.closed 0 "{}" "") = .ok (.obj []) :=
  ⟨(c4_backend_bridge parseDemo 2 "" "agent not found" (.obj [])).1 (by decide),
   (c4_backend_bridge parseDemo 0 "oops" "" (.obj [])).2.1 rfl rfl,
   (c4_backend_bridge parseDemo 0 "{}" "" (.obj [])).2.2 rfl rfl⟩

/-- Claim C5, counterexample: the claimed notification sequence —
an initial-and-25 progress, a fixed count of incrementing step
notifications, one `streaming_update` broadcast, then a 100
completion — occurs in NEITHER cited implementation of the scenario
(token `"t2"`, `streaming: true`, one open connection): the enhanced
server's trace contains no `streaming_update` notification at all,
and the index.ts trace contains no progress-25 notification. -/
theorem c5_streaming_scenario_counterexample :
    enhancedStreamRun.2.broadcasts.all (fun m => !msgIsStreamingUpdate m) = true ∧
    idxStreamRun.2.broadcasts.all (fun m => !(msgProgress m == some 25)) = true :=
  ⟨rfl, rfl⟩

/-- Claim C5, amended: the exact traces of the scenario. The enhanced
server emits `0 ("Starting…"), 25, a per-connection
`notifications/progress` at 75 carrying the backend result (not a
`streaming_update`), then 100 — with no step notifications. index.ts
emits `0 ("Starting…")`, eleven step notifications `Step i/10` with
non-decreasing percentages 0,10,…,100, then one `streaming_update`
carrying the call's own arguments, returns its literal result, and
sends no separate completion after the chunk. Each broadcast reaches
the single open connection. -/
theorem c5_streaming_scenario_traces :
    enhancedStreamRun.1 = .ok (.str "backend result") ∧
    enhancedStreamRun.2.broadcasts =
      [.progress "t2" 0 "Starting create_streaming_workflow...",
       .progress "t2" 25 "Initializing streaming...",
       .progressData "t2" 75 "Streaming updates..." (.str "backend result"),
       .progress "t2" 100 "Streaming completed"] ∧
    enhancedStreamRun.2.deliveries =
      enhancedStreamRun.2.broadcasts.map (fun m => ⟨"c1", m⟩) ∧
    idxStreamRun.1 = .ok (.obj [("streaming", .bool true), ("completed", .bool true),
      ("tool", .str "create_streaming_workflow")]) ∧
    idxStreamRun.2.broadcasts =
      [.progress "t2" 0 "Starting create_streaming_workflow...",
       .progress "t2" 0 "Step 0/10", .progress "t2" 10 "Step 1/10",
       .progress "t2" 20 "Step 2/10", .progress "t2" 30 "Step 3/10",
       .progress "t2" 40 "Step 4/10", .progress "t2" 50 "Step 5/10",
       .progress "t2" 60 "Step 6/10", .progress "t2" 70 "Step 7/10",
       .progress "t2" 80 "Step 8/10", .progress "t2" 90 "Step 9/10",
       .progress "t2" 100 "Step 10/10",
       .streamingUpdate "create_streaming_workflow" 100 (.obj streamArgsI)] ∧
    idxStreamRun.2.deliveries =
      idxStreamRun.2.broadcasts.map (fun m => ⟨"c1", m⟩) :=
  ⟨rfl, rfl, rfl, rfl, rfl, rfl⟩

/-- Claim C6, counterexample: the claimed message sequence
`"Starting execute_workflow"` / `"Processing execute_workflow"` /
`"Completed execute_workflow"` is not what the handler emits — the
first two messages carry a trailing `"..."` in the source
(`Starting ${toolName}...`). -/
theorem c6_execute_workflow_counterexample :
    execRun.2.broadcasts.map msgMessage ≠
      ["Starting execute_workflow", "Processing execute_workflow",
       "Completed execute_workflow"] := by
  decide

/-- Claim C6, amended: invoking `execute_workflow` with token `"t1"`
produces exactly the notification sequence
`progress(t1, 0, "Starting execute_workflow...")`,
`progress(t1, 50, "Processing execute_workflow...")`,
`progress(t1, 100, "Completed execute_workflow")`, and `"t1"` is
absent from the active progress tokens afterwards. -/
theorem c6_execute_workflow_trace :
    execRun.1 = .ok (.str "backend result") ∧
    execRun.2.broadcasts =
      [.progress "t1" 0 "Starting execute_workflow...",
       .progress "t1" 50 "Processing execute_workflow...",
       .progress "t1" 100 "Completed execute_workflow"] ∧
    mapLookup execRun.2.progressTokens "t1" = none :=
  ⟨rfl, rfl, rfl⟩

/-- The index.ts streaming scenario run with the token omitted. -/
def idxStreamNoTokRun : Except String Json × St :=
  M.run (Idx.callTool envOk "create_streaming_workflow" streamArgsI none) stOneConn

/-- Claim C7, counterexample: in index.ts, token presence changes the
branch, the backend invocations and the returned result. With a token,
`create_streaming_workflow` runs the streaming branch — no backend
call, literal `{streaming, completed, tool}` result; without one it
falls through to the regular path — one backend call, backend result
returned. -/
theorem c7_streaming_branch_counterexample :
    idxStreamRun.1 = .ok (.obj [("streaming", .bool true), ("completed", .bool true),
      ("tool", .str "create_streaming_workflow")]) ∧
    idxStreamNoTokRun.1 = .ok (.str "backend result") ∧
    idxStreamRun.2.backendCalls = [] ∧
    idxStreamNoTokRun.2.backendCalls = [("create_streaming_workflow", streamArgsI)] ∧
    Json.obj [("streaming", .bool true), ("completed", .bool true),
      ("tool", .str "create_streaming_workflow")] ≠ Json.str "backend result" :=
  ⟨rfl, rfl, rfl, rfl, fun h => Json.noConfusion h⟩

/-- Claim C7, amended: in the ENHANCED server, provided the backend
ignores the forwarded `progress_token` argument field, running any
tool call with its token and with the token removed yields the same
settled result and the same backend invocations (same tools, in the
same order, with arguments equal up to the token field): token
presence only gates the progress notifications. -/
theorem c7_enhanced_token_blind (env : Env) (tool : String) (args : Args) (s : St)
    (hp : ∀ t a, env.python t (mapDelete a "progress_token") = env.python t a) :
    (M.run (Enhanced.callTool env tool args) s).1 =
      (M.run (Enhanced.callTool env tool (mapDelete args "progress_token")) s).1 ∧
    (M.run (Enhanced.callTool env tool args) s).2.backendCalls.map stripCall =
      (M.run (Enhanced.callTool env tool
        (mapDelete args "progress_token")) s).2.backendCalls.map stripCall := by
  have h := sim_callToolE env tool args hp s s (stripEq_refl s)
  exact ⟨h.1, h.2.2.2⟩

/-- Witness for `c7_enhanced_token_blind`: `execute_workflow` with and
without token `"t1"` against the constant backend. -/
theorem c7_enhanced_token_blind_witness :
    (M.run (Enhanced.callTool envOk "execute_workflow" execArgs) stOneConn).1 =
      (M.run (Enhanced.callTool envOk "execute_workflow"
        (mapDelete execArgs "progress_token")) stOneConn).1 ∧
    (M.run (Enhanced.callTool envOk "execute_workflow" execArgs)
        stOneConn).2.backendCalls.map stripCall =
      (M.run (Enhanced.callTool envOk "execute_workflow"
        (mapDelete execArgs "progress_token")) stOneConn).2.backendCalls.map stripCall :=
  c7_enhanced_token_blind envOk "execute_workflow" execArgs stOneConn (fun _ _ => rfl)

/-- Claim C8, counterexample: registering a connection under an
already-registered session id does not fail with a `DuplicateSession`
error and does not leave the existing registration unchanged — the
`GET /sse` handler's unconditional `Map.set` silently replaces the
previously registered transport. -/
theorem c8_duplicate_session_counterexample :
    Enhanced.sseRegister [("s", connOk)] (some "s") 0 connBad = [("s", connBad)] ∧
    connBad ≠ connOk :=
  ⟨rfl, by decide⟩

/-- Claim C8, amended: registration always succeeds; when the
client-supplied session id (non-empty) is already registered, the new
transport replaces the old one under that id. -/
theorem c8_register_overwrites (ts : List (String × Transport)) (sid : String)
    (t : Transport) (now : Nat) (hsid : sid ≠ "") :
    mapLookup (Enhanced.sseRegister ts (some sid) now t) sid = some t := by
  simp [Enhanced.sseRegister, hsid]

/-- Witness for `c8_register_overwrites`. -/
theorem c8_register_overwrites_witness :
    mapLookup (Enhanced.sseRegister [("s", connOk)] (some "s") 0 connBad) "s" =
      some connBad :=
  c8_register_overwrites [("s", connOk)] "s" connBad 0 (by decide)

/-- Claim C9, counterexample: beginning progress tracking for a token
that is already tracked does not fail with a `DuplicateToken` error —
the handler's `Map.set` silently overwrites the existing
token-to-tool mapping. Starting from a tracker containing
`t2 ↦ old_tool`, a `create_streaming_workflow` call with token `"t2"`
succeeds and the tracker afterwards maps `t2` to the new tool. -/
theorem c9_duplicate_token_counterexample :
    (M.run (Enhanced.callTool envOk "create_streaming_workflow" streamArgsE)
      { st0 with progressTokens := [("t2", "old_tool")] }).1 =
      .ok (.str "backend result") ∧
    (M.run (Enhanced.callTool envOk "create_streaming_workflow" streamArgsE)
      { st0 with progressTokens := [("t2", "old_tool")] }).2.progressTokens =
      [("t2", "create_streaming_workflow")] :=
  ⟨rfl, rfl⟩

/-- Claim C9, amended: the tracker's `begin` step never fails; for a
token that is already tracked it overwrites the existing mapping with
the new tool name. -/
theorem c9_begin_overwrites (tokens : List (String × String))
    (tok toolName oldTool : String)
    (h : mapLookup tokens tok = some oldTool) :
    mapLookup (Enhanced.progressBegin tokens tok toolName) tok = some toolName := by
  unfold Enhanced.progressBegin
  exact mapLookup_mapSet_self tokens tok toolName

/-- Witness for `c9_begin_overwrites`. -/
theorem c9_begin_overwrites_witness :
    mapLookup (Enhanced.progressBegin [("t1", "create_agent")] "t1" "execute_workflow")
      "t1" = some "execute_workflow" :=
  c9_begin_overwrites [("t1", "create_agent")] "t1" "execute_workflow" "create_agent" rfl

/-- Claim C10 (confirmed): every enhanced tool invocation — whatever
the tool, arguments, backend behaviour or starting state, and whether
it returns or throws — leaves the Subscription Table exactly as it
found it, and leaves every Progress Tracker entry not keyed by the
call's own progress token unchanged. -/
theorem c10_frame (env : Env) (tool : String) (args : Args) (s : St) :
    (M.run (Enhanced.callTool env tool args) s).2.subscribers = s.subscribers ∧
    ∀ k : String, Enhanced.progressTokenOf args ≠ some k →
      mapLookup (M.run (Enhanced.callTool env tool args) s).2.progressTokens k =
        mapLookup s.progressTokens k := by
  constructor
  · exact (coreFrame_callToolE env tool args s).1
  · intro k hk
    rcases hpt : Enhanced.progressTokenOf args with _ | tok
    · rw [(obs_callToolE_noTok env tool args hpt s).1]
    · refine tokensFrame_callToolE env tool args tok hpt s k ?_
      intro hkt
      exact hk (by rw [hpt, hkt])

/-- Witness for `c10_frame`: `execute_workflow` with token `"t1"`
leaves the subscription set and the (absent) entry for the unrelated
token `"other"` unchanged. -/
theorem c10_frame_witness :
    (M.run (Enhanced.callTool envOk "execute_workflow" execArgs)
      stOneConn).2.subscribers = stOneConn.subscribers ∧
    mapLookup (M.run (Enhanced.callTool envOk "execute_workflow" execArgs)
      stOneConn).2.progressTokens "other" = mapLookup stOneConn.progressTokens "other" :=
  ⟨(c10_frame envOk "execute_workflow" execArgs stOneConn).1,
   (c10_frame envOk "execute_workflow" execArgs stOneConn).2 "other" (by decide)⟩
